import Mathlib

/-!
# Verification of `prisma-prefixed-ids` (`src/index.ts`)

A shallow embedding of the library's core: the schema lookup
(`findRelationModel`), the recursive nested-write rewriter
(`processNestedData`), the per-operation dispatcher
(`createOperationHandler`) and the prefixed-id builder (`prefixedId`),
together with theorems about them.

Modelling conventions for the JavaScript semantics:

* A JS value is a `JValue`: `null`, booleans, numbers (modelled as `Int`;
  the claims only exercise integral values), strings, arrays, and objects.
  An object is its insertion-ordered field list.  `undefined` is modelled
  as absence: a property read that yields `undefined` is `Option.none`,
  and a spread entry whose value would be `undefined` is simply omitted
  (this is the JSON-observable view of the data handed to the query
  engine, where `undefined`-valued properties are indistinguishable from
  absent ones).
* Property access on a non-object (`jGet`) yields `none`, matching
  `undefined` for primitives; the embedding therefore describes payloads
  on which the original never hits a `TypeError` (reading a property of
  `null` at an exotic position would throw instead).
* Property assignment (`jSet`) on a non-object is the identity, matching
  sloppy-mode JS for primitives.
* Object spread (`spreadFields`) of an array yields the index-keyed
  fields `{"0": …, "1": …}` and spread of a string yields its index-keyed
  characters, as in JS; spreading other primitives yields no fields.
* JS object iteration order is modelled as list order.  The payload keys
  exercised by this library are non-numeric, so the integer-key
  reordering of JS objects does not arise.
-/

/-- A JavaScript value as seen by the rewriter (JSON-observable view). -/
inductive JValue where
  | null : JValue
  | bool : Bool → JValue
  | num : Int → JValue
  | str : String → JValue
  | arr : List JValue → JValue
  | obj : List (String × JValue) → JValue
deriving Inhabited

/-- JS truthiness: `null`, `false`, `0` and `""` are falsy; arrays and
objects are always truthy. -/
def jsTruthy : JValue → Bool
  | .null => false
  | .bool b => b
  | .num n => n != 0
  | .str s => s != ""
  | .arr _ => true
  | .obj _ => true

/-- Truthiness of a property-read result (`undefined`, i.e. `none`, is falsy). -/
def jsTruthyO : Option JValue → Bool
  | some v => jsTruthy v
  | none => false

/-- `typeof v === "object"` for a truthy `v`: arrays and objects. -/
def isObjLike : JValue → Bool
  | .arr _ => true
  | .obj _ => true
  | _ => false

/-- First-match lookup in an insertion-ordered field list. -/
def jLookupF : List (String × JValue) → String → Option JValue
  | [], _ => none
  | (k', v) :: rest, k => if k' = k then some v else jLookupF rest k

/-- JS property assignment on a field list: replace the first occurrence
in place, or append when the key is absent. -/
def setKeyF : List (String × JValue) → String → JValue → List (String × JValue)
  | [], k, v => [(k, v)]
  | (k', w) :: rest, k, v => if k' = k then (k, v) :: rest else (k', w) :: setKeyF rest k v

/-- Property read `v[k]`; `none` models `undefined`. -/
def jGet : JValue → String → Option JValue
  | .obj fs, k => jLookupF fs k
  | _, _ => none

/-- `v[k]` with `null` standing in for an unreachable `undefined`. -/
def jGetD (v : JValue) (k : String) : JValue := (jGet v k).getD .null

/-- `k in v` for the (non-numeric) keys this library tests membership of. -/
def jHasField (v : JValue) (k : String) : Bool := (jGet v k).isSome

/-- Property assignment `v[k] = w` (identity on primitives, as in sloppy mode). -/
def jSet (v : JValue) (k : String) (w : JValue) : JValue :=
  match v with
  | .obj fs => .obj (setKeyF fs k w)
  | other => other

/-- The index-keyed fields produced by spreading the tail of a list that
started at index `i`. -/
def arrSpreadFrom (i : Nat) : List JValue → List (String × JValue)
  | [] => []
  | x :: xs => (Nat.repr i, x) :: arrSpreadFrom (i + 1) xs

/-- `{...someArray}`: the array's elements under their decimal index keys. -/
def arrSpread (xs : List JValue) : List (String × JValue) := arrSpreadFrom 0 xs

/-- The own enumerable fields captured by an object spread `{...v}`. -/
def spreadFields : JValue → List (String × JValue)
  | .obj fs => fs
  | .arr xs => arrSpread xs
  | .str s => arrSpread (s.data.map (fun c => .str (String.mk [c])))
  | _ => []

/-- Path lookup used to state properties about nodes at arbitrary nesting
depth.  Array elements are addressed by their decimal index string, as JS
property access does; the all-digits guard mirrors the fact that an array
has no own property under a non-numeric key. -/
def getPath : JValue → List String → Option JValue
  | v, [] => some v
  | .obj fs, k :: p =>
      match jLookupF fs k with
      | some w => getPath w p
      | none => none
  | .arr xs, k :: p =>
      if k.data.all (·.isDigit) then
        match jLookupF (arrSpread xs) k with
        | some w => getPath w p
        | none => none
      else none
  | _, _ :: _ => none

/-- `RELATION_OPERATIONS` from `src/index.ts`. -/
def RELATION_OPERATIONS : List String :=
  ["create", "createMany", "connectOrCreate", "upsert", "update", "updateMany"]

/-- `isRelationOperation` from `src/index.ts`. -/
def isRelationOperation (k : String) : Bool := RELATION_OPERATIONS.contains k

/-- One field of a DMMF model: a name, a kind tag (`"object"` marks a
relation) and the target type name. -/
structure DField where
  name : String
  kind : String
  ty : String

/-- One DMMF model: a name and its ordered field list. -/
structure DModel where
  name : String
  fields : List DField

/-- The `dmmf.datamodel` structure the library consults. -/
structure Dmmf where
  models : List DModel

/-- `findRelationModel` from `src/index.ts`: look the parent model up by
name, then the field; return its target type when its kind is `"object"`. -/
def findRelationModel (dmmf : Dmmf) (parentModel fieldName : String) : Option String :=
  match dmmf.models.find? (fun m => m.name == parentModel) with
  | none => none
  | some m =>
      match m.fields.find? (fun f => f.name == fieldName) with
      | none => none
      | some f => if f.kind != "object" then none else some f.ty

mutual

/-- Size measure for the rewriter's termination: containers weigh one more
than the sum of their contents, primitives weigh nothing (so that adding a
string-valued `id` field never increases the weight). -/
def jsize : JValue → Nat
  | .arr xs => 1 + jsizeList xs
  | .obj fs => 1 + jsizeFields fs
  | _ => 0

def jsizeList : List JValue → Nat
  | [] => 0
  | x :: xs => jsize x + jsizeList xs

def jsizeFields : List (String × JValue) → Nat
  | [] => 0
  | (_, v) :: fs => jsize v + jsizeFields fs

end

def jsize_lookupF_le : ∀ (fs : List (String × JValue)) (k : String) (v : JValue),
    jLookupF fs k = some v → jsize v ≤ jsizeFields fs := by
  intro fs k v h
  induction fs with
  | nil => simp [jLookupF] at h
  | cons kv rest ih =>
    obtain ⟨k', w⟩ := kv
    simp only [jLookupF] at h
    by_cases hk : k' = k
    · simp [hk] at h
      simp [jsizeFields, ← h]
    · simp [hk] at h
      have := ih h
      simp [jsizeFields]
      omega

def jsize_mem_fields_le : ∀ (fs : List (String × JValue)) (k : String) (v : JValue),
    (k, v) ∈ fs → jsize v ≤ jsizeFields fs := by
  intro fs k v h
  induction fs with
  | nil => simp at h
  | cons kv rest ih =>
    simp only [List.mem_cons] at h
    obtain ⟨k', w⟩ := kv
    rcases h with h | h
    · have h2 : v = w := congrArg Prod.snd h
      simp [jsizeFields, h2]
    · have := ih h
      simp [jsizeFields]
      omega

def jsize_mem_list_le : ∀ (xs : List JValue) (x : JValue),
    x ∈ xs → jsize x ≤ jsizeList xs := by
  intro xs x h
  induction xs with
  | nil => simp at h
  | cons y rest ih =>
    simp only [List.mem_cons] at h
    rcases h with h | h
    · simp [jsizeList, h]
    · have := ih h
      simp [jsizeList]
      omega

def jsizeFields_setKeyF_le : ∀ (fs : List (String × JValue)) (k : String) (v : JValue),
    jsizeFields (setKeyF fs k v) ≤ jsizeFields fs + jsize v := by
  intro fs k v
  induction fs with
  | nil => simp [setKeyF, jsizeFields]
  | cons kv rest ih =>
    obtain ⟨k', w⟩ := kv
    simp only [setKeyF]
    by_cases hk : k' = k
    · simp [hk, jsizeFields]
      omega
    · simp [hk, jsizeFields]
      omega

def jsize_jGet_lt : ∀ (v : JValue) (k : String) (w : JValue),
    jGet v k = some w → jsize w < jsize v := by
  intro v k w h
  match v with
  | .obj fs =>
      simp only [jGet] at h
      have := jsize_lookupF_le fs k w h
      simp [jsize]
      omega
  | .null | .bool _ | .num _ | .str _ | .arr _ => simp [jGet] at h

def jsize_mem_pair_le : ∀ (fs : List (String × JValue)) (kv : String × JValue),
    kv ∈ fs → jsize kv.2 ≤ jsizeFields fs := by
  intro fs kv h
  exact jsize_mem_fields_le fs kv.1 kv.2 h

/-- Step 2 of the rewriter's object case: `if (shouldAddRootId && !result.id)
{ const id = prefixedId(model); if (id) { result.id = id; } }`. -/
def addRootIdFields (kvs : List (String × JValue)) (model : String)
    (prefixedId : String → Option String) (shouldAddRootId : Bool) :
    List (String × JValue) :=
  if shouldAddRootId && !(jsTruthyO (jLookupF kvs "id")) then
    match prefixedId model with
    | some g => if g = "" then kvs else setKeyF kvs "id" (.str g)
    | none => kvs
  else kvs

def jsizeFields_addRootIdFields_le :
    ∀ (kvs : List (String × JValue)) (model : String)
      (prefixedId : String → Option String) (b : Bool),
    jsizeFields (addRootIdFields kvs model prefixedId b) ≤ jsizeFields kvs := by
  intro kvs model prefixedId b
  unfold addRootIdFields
  by_cases h1 : (b && !(jsTruthyO (jLookupF kvs "id"))) = true
  · simp only [h1, if_true]
    match prefixedId model with
    | some g =>
        by_cases h2 : g = ""
        · simp [h2]
        · simp only [h2, if_false]
          have := jsizeFields_setKeyF_le kvs "id" (.str g)
          simpa [jsize] using this
    | none => simp
  · simp only [h1]
    simp

def jsize_entry_lt : ∀ (kvs : List (String × JValue)) (model : String)
    (prefixedId : String → Option String) (b : Bool) (kv : String × JValue),
    kv ∈ addRootIdFields kvs model prefixedId b → jsize kv.2 < jsize (.obj kvs) := by
  intro kvs model prefixedId b kv h
  have h1 := jsize_mem_pair_le _ _ h
  have h2 := jsizeFields_addRootIdFields_le kvs model prefixedId b
  simp only [jsize]
  omega

def jsize_elem_lt : ∀ (xs : List JValue) (x : JValue),
    x ∈ xs → jsize x < jsize (.arr xs) := by
  intro xs x h
  have := jsize_mem_list_le xs x h
  simp only [jsize]
  omega

mutual

/-- `processNestedData` from `src/index.ts` (the nested-write rewriter).

The object case shallow-copies the node, runs the root-id step
(`addRootIdFields`), and then rewrites each entry of the copy exactly as
the source's `for (const [key, value] of Object.entries(result))` loop
does.  The loop body only ever reassigns `result[key]` from the entry's
own snapshot value (and, in Case 1, from the key *list*, which the loop
never changes), so iterating it is the same as mapping each entry
independently.  The source assigns `result[key] = value` unchanged for
`update`/`updateMany` and leaves unmatched entries alone; both are the
identity on the entry and are modelled as such. -/
def processNestedData (data : JValue) (model : String)
    (prefixedId : String → Option String) (dmmf : Dmmf)
    (shouldAddRootId : Bool := true) : JValue :=
  match data with
  | .arr xs =>
      .arr (xs.attach.map (fun x =>
        processNestedData x.1 model prefixedId dmmf shouldAddRootId))
  | .obj kvs =>
      .obj ((addRootIdFields kvs model prefixedId shouldAddRootId).attach.map (fun kv =>
        (kv.1.1,
          -- `if (!value || typeof value !== "object") continue;`
          if !(jsTruthy kv.1.2 && isObjLike kv.1.2) then kv.1.2
          -- CASE 1: the key itself is a relation operation; the first
          -- non-operation key of the node that resolves provides the model.
          else if isRelationOperation kv.1.1 then
            match (((addRootIdFields kvs model prefixedId shouldAddRootId).map
                Prod.fst).filter (fun f => !isRelationOperation f)).findSome?
                (fun rf => findRelationModel dmmf model rf) with
            | none => kv.1.2
            | some rm =>
                if kv.1.1 = "createMany" && jHasField kv.1.2 "data" then
                  match hd : jGet kv.1.2 "data" with
                  | some d =>
                      .obj (setKeyF (spreadFields kv.1.2) "data"
                        (processNestedData d rm prefixedId dmmf true))
                  | none => kv.1.2   -- unreachable under the `"data" in value` guard
                else if kv.1.1 = "upsert" then
                  pndUpsertVal kv.1.2 rm prefixedId dmmf
                else if kv.1.1 = "connectOrCreate" then
                  .obj (match hc : jGet kv.1.2 "create" with
                    | some c =>
                        setKeyF (spreadFields kv.1.2) "create"
                          (if jsTruthy c then processNestedData c rm prefixedId dmmf true
                           else c)
                    | none => spreadFields kv.1.2)
                else if kv.1.1 = "create" || kv.1.1 = "createMany" then
                  processNestedData kv.1.2 rm prefixedId dmmf true
                else kv.1.2   -- other operations (update, updateMany): passed through
          -- CASE 2: the key may be a relation field containing operations
          else
            match findRelationModel dmmf model kv.1.1 with
            | none => kv.1.2
            | some rm =>
                -- `const updatedValue = { ...value };` then one step per
                -- operation present in `value`, in RELATION_OPERATIONS order;
                -- `update`/`updateMany` reassign the unchanged value (no-ops).
                .obj (pndUpdateMatch4 kv.1.2 rm prefixedId dmmf
                  (pndUpdateMatch3 kv.1.2 rm prefixedId dmmf
                    (pndUpdateMatch2 kv.1.2 rm prefixedId dmmf
                      (pndUpdateMatch1 kv.1.2 rm prefixedId dmmf
                        (spreadFields kv.1.2))))))))
  | v => v   -- `if (!data) return data;` and the final `return data;`
termination_by (jsize data, 0)
decreasing_by
all_goals simp_wf
all_goals
  first
  | (apply Prod.Lex.right
     omega)
  | (apply Prod.Lex.left
     try have h0 := jsize_elem_lt _ _ x.2
     try have h1 := jsize_entry_lt _ _ _ _ _ kv.2
     try have h2 := jsize_jGet_lt _ _ _ hd
     try have h3 := jsize_jGet_lt _ _ _ hc
     omega)

/-- Case 2, step for `op === "create"`: `updatedValue[op] =
processNestedData(value[op], relatedModel, prefixedId, dmmf)`. -/
def pndUpdateMatch1 (w : JValue) (rm : String) (prefixedId : String → Option String)
    (dmmf : Dmmf) (acc : List (String × JValue)) : List (String × JValue) :=
  match hc : jGet w "create" with
  | some cv => setKeyF acc "create" (processNestedData cv rm prefixedId dmmf true)
  | none => acc
termination_by (jsize w, 1)
decreasing_by
all_goals simp_wf
all_goals
  apply Prod.Lex.left
  have h1 := jsize_jGet_lt _ _ _ hc
  omega

/-- Case 2, step for `op === "createMany"`: with a `data` field the value
is rebuilt as `{ ...value[op], data: processNestedData(value[op].data, …) }`;
without one the whole value falls into the generic create branch. -/
def pndUpdateMatch2 (w : JValue) (rm : String) (prefixedId : String → Option String)
    (dmmf : Dmmf) (acc : List (String × JValue)) : List (String × JValue) :=
  match hcm : jGet w "createMany" with
  | some cm =>
      setKeyF acc "createMany"
        (if jHasField cm "data" then
          match hd : jGet cm "data" with
          | some d =>
              .obj (setKeyF (spreadFields cm) "data"
                (processNestedData d rm prefixedId dmmf true))
          | none => cm   -- unreachable under the `"data" in value[op]` guard
        else processNestedData cm rm prefixedId dmmf true)
  | none => acc
termination_by (jsize w, 1)
decreasing_by
all_goals simp_wf
all_goals
  apply Prod.Lex.left
  have h1 := jsize_jGet_lt _ _ _ hcm
  try have h2 := jsize_jGet_lt _ _ _ hd
  omega

/-- Case 2, step for `op === "connectOrCreate"`: an array is mapped
item-wise (`{ ...item, create: item.create ? processNestedData(item.create,
…, true) : item.create }`); a non-array value is passed through unchanged
(the source's explicit fallback). -/
def pndUpdateMatch3 (w : JValue) (rm : String) (prefixedId : String → Option String)
    (dmmf : Dmmf) (acc : List (String × JValue)) : List (String × JValue) :=
  match hcc : jGet w "connectOrCreate" with
  | some (.arr items) =>
      setKeyF acc "connectOrCreate"
        (.arr (items.attach.map (fun it =>
          .obj (match hc : jGet it.1 "create" with
            | some c =>
                setKeyF (spreadFields it.1) "create"
                  (if jsTruthy c then processNestedData c rm prefixedId dmmf true
                   else c)
            | none => spreadFields it.1))))
  | some cc => setKeyF acc "connectOrCreate" cc
  | none => acc
termination_by (jsize w, 1)
decreasing_by
all_goals simp_wf
all_goals
  apply Prod.Lex.left
  have h1 := jsize_jGet_lt _ _ _ hcc
  have h2 := jsize_elem_lt _ _ it.2
  have h3 := jsize_jGet_lt _ _ _ hc
  omega

/-- Case 2, step for `op === "upsert"`. -/
def pndUpdateMatch4 (w : JValue) (rm : String) (prefixedId : String → Option String)
    (dmmf : Dmmf) (acc : List (String × JValue)) : List (String × JValue) :=
  match hu : jGet w "upsert" with
  | some uv => setKeyF acc "upsert" (pndUpsertVal uv rm prefixedId dmmf)
  | none => acc
termination_by (jsize w, 2)
decreasing_by
all_goals simp_wf
all_goals
  apply Prod.Lex.left
  have h1 := jsize_jGet_lt _ _ _ hu
  omega

/-- The upsert handling shared by Case 1 and Case 2:
`const upsertItems = Array.isArray(value) ? value : [value]` mapped with
`pndUpsertItem`, then unwrapped again for the non-array form
(`processedUpserts[0]`). -/
def pndUpsertVal (w : JValue) (rm : String) (prefixedId : String → Option String)
    (dmmf : Dmmf) : JValue :=
  match w with
  | .arr items => .arr (items.attach.map (fun it => pndUpsertItem it.1 rm prefixedId dmmf))
  | v => pndUpsertItem v rm prefixedId dmmf
termination_by (jsize w, 4)
decreasing_by
all_goals simp_wf
all_goals
  first
  | (apply Prod.Lex.right
     omega)
  | (apply Prod.Lex.left
     have h1 := jsize_elem_lt _ _ it.2
     omega)

/-- One upsert item: `{ ...item, create: item.create ?
processNestedData(item.create, …) : item.create, update: item.update ?
processNestedData(item.update, …, false) : item.update }` (an absent
sub-field stays absent, see the `undefined` convention above). -/
def pndUpsertItem (item : JValue) (rm : String) (prefixedId : String → Option String)
    (dmmf : Dmmf) : JValue :=
  .obj
    (match hu : jGet item "update" with
     | some u =>
         setKeyF
           (match hc : jGet item "create" with
            | some c =>
                setKeyF (spreadFields item) "create"
                  (if jsTruthy c then processNestedData c rm prefixedId dmmf true else c)
            | none => spreadFields item)
           "update"
           (if jsTruthy u then processNestedData u rm prefixedId dmmf false else u)
     | none =>
         match hc : jGet item "create" with
         | some c =>
             setKeyF (spreadFields item) "create"
               (if jsTruthy c then processNestedData c rm prefixedId dmmf true else c)
         | none => spreadFields item)
termination_by (jsize item, 3)
decreasing_by
all_goals simp_wf
all_goals
  apply Prod.Lex.left
  try have h1 := jsize_jGet_lt _ _ _ hc
  try have h2 := jsize_jGet_lt _ _ _ hu
  omega

end

theorem attach_map_subtype {α β : Type} (l : List α) (f : (Subtype (fun x => x ∈ l)) → β)
    (g : α → β) (h : ∀ (x : Subtype (fun x => x ∈ l)), f x = g x.1) :
    l.attach.map f = l.map g := by
  have h1 : l.attach.map f = l.attach.map (fun x => g x.1) := by
    apply List.map_congr_left
    intro x _
    exact h x
  rw [h1]
  exact List.attach_map_coe l g

/-- The body of the rewriter's per-entry loop, as a standalone function:
`pndEntry kvs model prefixedId dmmf b k w` is what the entry `(k, w)` of
the (id-augmented) node copy built from `kvs` is rewritten to. -/
def pndEntry (kvs : List (String × JValue)) (model : String)
    (prefixedId : String → Option String) (dmmf : Dmmf) (b : Bool)
    (k : String) (w : JValue) : JValue :=
  if !(jsTruthy w && isObjLike w) then w
  else if isRelationOperation k then
    match (((addRootIdFields kvs model prefixedId b).map Prod.fst).filter
        (fun f => !isRelationOperation f)).findSome?
        (fun rf => findRelationModel dmmf model rf) with
    | none => w
    | some rm =>
        if k = "createMany" && jHasField w "data" then
          match hd : jGet w "data" with
          | some d =>
              .obj (setKeyF (spreadFields w) "data"
                (processNestedData d rm prefixedId dmmf true))
          | none => w
        else if k = "upsert" then
          pndUpsertVal w rm prefixedId dmmf
        else if k = "connectOrCreate" then
          .obj (match hc : jGet w "create" with
            | some c =>
                setKeyF (spreadFields w) "create"
                  (if jsTruthy c then processNestedData c rm prefixedId dmmf true
                   else c)
            | none => spreadFields w)
        else if k = "create" || k = "createMany" then
          processNestedData w rm prefixedId dmmf true
        else w
  else
    match findRelationModel dmmf model k with
    | none => w
    | some rm =>
        .obj (pndUpdateMatch4 w rm prefixedId dmmf
          (pndUpdateMatch3 w rm prefixedId dmmf
            (pndUpdateMatch2 w rm prefixedId dmmf
              (pndUpdateMatch1 w rm prefixedId dmmf
                (spreadFields w)))))

theorem pnd_obj (kvs : List (String × JValue)) (model : String)
    (prefixedId : String → Option String) (dmmf : Dmmf) (b : Bool) :
    processNestedData (.obj kvs) model prefixedId dmmf b
      = .obj ((addRootIdFields kvs model prefixedId b).map (fun kv =>
          (kv.1, pndEntry kvs model prefixedId dmmf b kv.1 kv.2))) := by
  rw [processNestedData]
  congr 1
  rw [attach_map_subtype (addRootIdFields kvs model prefixedId b) _
    (fun kv => (kv.1, pndEntry kvs model prefixedId dmmf b kv.1 kv.2))]
  intro kv
  rfl

theorem pnd_null (model : String) (prefixedId : String → Option String)
    (dmmf : Dmmf) (b : Bool) :
    processNestedData .null model prefixedId dmmf b = .null := by
  rw [processNestedData] <;> simp

theorem pnd_bool (x : Bool) (model : String) (prefixedId : String → Option String)
    (dmmf : Dmmf) (b : Bool) :
    processNestedData (.bool x) model prefixedId dmmf b = .bool x := by
  rw [processNestedData] <;> simp

theorem pnd_num (n : Int) (model : String) (prefixedId : String → Option String)
    (dmmf : Dmmf) (b : Bool) :
    processNestedData (.num n) model prefixedId dmmf b = .num n := by
  rw [processNestedData] <;> simp

theorem pnd_str (s : String) (model : String) (prefixedId : String → Option String)
    (dmmf : Dmmf) (b : Bool) :
    processNestedData (.str s) model prefixedId dmmf b = .str s := by
  rw [processNestedData] <;> simp

theorem pnd_arr (xs : List JValue) (model : String)
    (prefixedId : String → Option String) (dmmf : Dmmf) (b : Bool) :
    processNestedData (.arr xs) model prefixedId dmmf b
      = .arr (xs.map (fun x => processNestedData x model prefixedId dmmf b)) := by
  rw [processNestedData]
  congr 1
  rw [attach_map_subtype xs _ (fun x => processNestedData x model prefixedId dmmf b)]
  intro x
  rfl

theorem jLookupF_map_pair (fs : List (String × JValue)) (k : String)
    (F : String → JValue → JValue) :
    jLookupF (fs.map (fun kv => (kv.1, F kv.1 kv.2))) k
      = (jLookupF fs k).map (F k) := by
  induction fs with
  | nil => simp [jLookupF]
  | cons kv rest ih =>
    obtain ⟨k', w⟩ := kv
    by_cases hk : k' = k
    · simp [jLookupF, hk]
    · simp [jLookupF, hk, ih]

theorem jLookupF_setKeyF_self (fs : List (String × JValue)) (k : String) (v : JValue) :
    jLookupF (setKeyF fs k v) k = some v := by
  induction fs with
  | nil => simp [setKeyF, jLookupF]
  | cons kv rest ih =>
    obtain ⟨k', w⟩ := kv
    by_cases hk : k' = k
    · simp [setKeyF, hk, jLookupF]
    · simp [setKeyF, hk, jLookupF, ih]

theorem jLookupF_setKeyF_ne (fs : List (String × JValue)) (k k' : String) (v : JValue)
    (h : k' ≠ k) :
    jLookupF (setKeyF fs k v) k' = jLookupF fs k' := by
  induction fs with
  | nil => simp [setKeyF, jLookupF, Ne.symm h]
  | cons kv rest ih =>
    obtain ⟨k'', w⟩ := kv
    by_cases hk : k'' = k
    · subst hk
      simp [setKeyF, jLookupF, Ne.symm h]
    · simp [setKeyF, hk, jLookupF, ih]

theorem keys_setKeyF (fs : List (String × JValue)) (k : String) (v : JValue) :
    ((setKeyF fs k v).map Prod.fst) = if k ∈ fs.map Prod.fst then fs.map Prod.fst
      else fs.map Prod.fst ++ [k] := by
  induction fs with
  | nil => simp [setKeyF]
  | cons kv rest ih =>
    obtain ⟨k', w⟩ := kv
    by_cases hk : k' = k
    · simp [setKeyF, hk]
    · simp only [setKeyF, hk, if_false, List.map_cons]
      rw [ih]
      by_cases hm : k ∈ rest.map Prod.fst
      · simp [hm, Ne.symm hk]
      · simp [hm, Ne.symm hk]

theorem jLookupF_map_snd (fs : List (String × JValue)) (k : String)
    (F : JValue → JValue) :
    jLookupF (fs.map (fun kv => (kv.1, F kv.2))) k = (jLookupF fs k).map F := by
  induction fs with
  | nil => simp [jLookupF]
  | cons kv rest ih =>
    obtain ⟨k', w⟩ := kv
    by_cases hk : k' = k
    · simp [jLookupF, hk]
    · simp [jLookupF, hk, ih]

theorem jLookupF_mem (fs : List (String × JValue)) (k : String) (v : JValue)
    (h : jLookupF fs k = some v) : (k, v) ∈ fs := by
  induction fs with
  | nil => simp [jLookupF] at h
  | cons kv rest ih =>
    obtain ⟨k', w⟩ := kv
    simp only [jLookupF] at h
    by_cases hk : k' = k
    · subst hk
      simp at h
      simp [h]
    · simp [hk] at h
      simp [ih h]

theorem jGet_some_obj (v : JValue) (k : String) (w : JValue)
    (h : jGet v k = some w) : ∃ fs, v = .obj fs ∧ jLookupF fs k = some w := by
  cases v <;> simp [jGet] at h ⊢
  assumption

theorem arrSpreadFrom_map (i : Nat) (xs : List JValue) (f : JValue → JValue) :
    arrSpreadFrom i (xs.map f) = (arrSpreadFrom i xs).map (fun kv => (kv.1, f kv.2)) := by
  induction xs generalizing i with
  | nil => simp [arrSpreadFrom]
  | cons x rest ih => simp [arrSpreadFrom, ih]

theorem jLookupF_arrSpreadFrom_mem (i : Nat) (xs : List JValue) (k : String) (w : JValue)
    (h : jLookupF (arrSpreadFrom i xs) k = some w) : w ∈ xs := by
  induction xs generalizing i with
  | nil => simp [arrSpreadFrom, jLookupF] at h
  | cons x rest ih =>
    simp only [arrSpreadFrom, jLookupF] at h
    by_cases hk : Nat.repr i = k
    · simp [hk] at h
      simp [h]
    · simp [hk] at h
      exact List.mem_cons_of_mem _ (ih _ h)

theorem getPath_arrSpread_obj (xs : List JValue) (k : String) (p : List String)
    (v : JValue) (h : getPath (.arr xs) (k :: p) = some v) :
    getPath (.obj (arrSpread xs)) (k :: p) = some v := by
  simp only [getPath] at h ⊢
  by_cases hd : k.data.all (·.isDigit)
  · simp only [hd, if_true] at h
    exact h
  · simp [hd] at h

theorem jsTruthy_false_not_objLike (v : JValue) (h : jsTruthy v = false) :
    isObjLike v = false := by
  cases v <;> simp_all [jsTruthy, isObjLike]

theorem getPath_prim_cons (v : JValue) (h : isObjLike v = false) (k : String)
    (p : List String) : getPath v (k :: p) = none := by
  cases v <;> simp_all [isObjLike, getPath]

/-- The pass-through relation keywords (`connect`, `disconnect`, `delete`). -/
def passThroughKeys : List String := ["connect", "disconnect", "delete"]

/-- The keys whose values the rewriter must preserve at any depth: a truthy
primitive `id`, and the pass-through keywords when the schema has no
relation field of that name (as real Prisma schemas do not). -/
def ProtectedKey (dmmf : Dmmf) (k : String) (v : JValue) : Prop :=
  (k = "id" ∧ jsTruthy v = true ∧ isObjLike v = false)
  ∨ (k ∈ passThroughKeys ∧ ∀ m, findRelationModel dmmf m k = none)

theorem protectedKey_cases (dmmf : Dmmf) (k : String) (v : JValue)
    (h : ProtectedKey dmmf k v) :
    k = "id" ∨ k = "connect" ∨ k = "disconnect" ∨ k = "delete" := by
  rcases h with ⟨h1, _⟩ | ⟨h1, _⟩
  · exact Or.inl h1
  · simp [passThroughKeys] at h1
    tauto

theorem protectedKey_not_digits (dmmf : Dmmf) (k : String) (v : JValue)
    (h : ProtectedKey dmmf k v) : k.data.all (·.isDigit) = false := by
  rcases protectedKey_cases dmmf k v h with h1 | h1 | h1 | h1 <;> subst h1 <;> decide

theorem protectedKey_ne (dmmf : Dmmf) (k : String) (v : JValue)
    (h : ProtectedKey dmmf k v) :
    k ≠ "data" ∧ k ≠ "create" ∧ k ≠ "update" ∧ k ≠ "createMany"
      ∧ k ≠ "connectOrCreate" ∧ k ≠ "upsert" := by
  rcases protectedKey_cases dmmf k v h with h1 | h1 | h1 | h1 <;> subst h1 <;> decide

theorem addRootIdFields_not_root (kvs : List (String × JValue)) (model : String)
    (prefixedId : String → Option String) :
    addRootIdFields kvs model prefixedId false = kvs := by
  simp [addRootIdFields]

theorem addRootIdFields_id_truthy (kvs : List (String × JValue)) (model : String)
    (prefixedId : String → Option String) (b : Bool)
    (h : jsTruthyO (jLookupF kvs "id") = true) :
    addRootIdFields kvs model prefixedId b = kvs := by
  simp [addRootIdFields, h]

theorem addRootIdFields_lookup_ne (kvs : List (String × JValue)) (model : String)
    (prefixedId : String → Option String) (b : Bool) (k : String) (h : k ≠ "id") :
    jLookupF (addRootIdFields kvs model prefixedId b) k = jLookupF kvs k := by
  unfold addRootIdFields
  by_cases h1 : (b && !(jsTruthyO (jLookupF kvs "id"))) = true
  · simp only [h1, if_true]
    match prefixedId model with
    | some g =>
        by_cases h2 : g = ""
        · simp [h2]
        · simp only [h2, if_false]
          exact jLookupF_setKeyF_ne kvs "id" k (.str g) h
    | none => simp
  · simp [h1]

/-- Path preservation through one upsert item (parameterised over the
induction hypothesis for smaller payloads). -/
theorem pndUpsertItem_path (dmmf : Dmmf) (n : Nat)
    (ih : ∀ (d : JValue), jsize d < n → ∀ (model : String)
      (pid : String → Option String) (b : Bool) (p : List String) (k : String)
      (v : JValue), ProtectedKey dmmf k v → getPath d (p ++ [k]) = some v →
      getPath (processNestedData d model pid dmmf b) (p ++ [k]) = some v)
    (item : JValue) (hsz : jsize item < n) (rm : String)
    (pid : String → Option String) (p : List String) (k : String) (v : JValue)
    (hprot : ProtectedKey dmmf k v) (hin : getPath item (p ++ [k]) = some v) :
    getPath (pndUpsertItem item rm pid dmmf) (p ++ [k]) = some v := by
  obtain ⟨k0, rest, hcons⟩ : ∃ k0 rest, p ++ [k] = k0 :: rest := by
    cases p with
    | nil => exact ⟨k, [], rfl⟩
    | cons a as => exact ⟨a, as ++ [k], rfl⟩
  match item with
  | .null | .bool _ | .num _ =>
      rw [hcons, getPath_prim_cons] at hin
      · exact absurd hin (by simp)
      · simp [isObjLike]
  | .str s =>
      rw [hcons, getPath_prim_cons] at hin
      · exact absurd hin (by simp)
      · simp [isObjLike]
  | .arr xs =>
      have harr : pndUpsertItem (.arr xs) rm pid dmmf = .obj (arrSpread xs) := by
        rw [pndUpsertItem]
        simp [jGet, spreadFields]
      rw [harr, hcons]
      rw [hcons] at hin
      exact getPath_arrSpread_obj xs k0 rest v hin
  | .obj fs =>
      have hne := protectedKey_ne dmmf k v hprot
      rw [pndUpsertItem]
      cases hu : jGet (.obj fs) "update" with
      | none =>
          cases hc : jGet (.obj fs) "create" with
          | none =>
              simp only [hu, hc, spreadFields]
              exact hin
          | some c =>
              simp only [hu, hc, spreadFields]
              simp only [jGet] at hc
              cases p with
              | nil =>
                  simp only [List.nil_append, getPath] at hin ⊢
                  rw [jLookupF_setKeyF_ne fs "create" k _ hne.2.1]
                  exact hin
              | cons k1 p' =>
                  simp only [List.cons_append, getPath] at hin ⊢
                  by_cases hk1 : k1 = "create"
                  · subst hk1
                    rw [jLookupF_setKeyF_self]
                    rw [hc] at hin
                    by_cases htc : jsTruthy c
                    · simp only [htc, if_true]
                      have hcs : jsize c < n := by
                        have h1 := jsize_lookupF_le fs "create" c hc
                        have : jsize (JValue.obj fs) = 1 + jsizeFields fs := by
                          simp [jsize]
                        omega
                      exact ih c hcs rm pid true p' k v hprot hin
                    · simp only [htc]
                      simp only [Bool.false_eq_true, if_false]
                      exact hin
                  · rw [jLookupF_setKeyF_ne fs "create" k1 _ hk1]
                    exact hin
      | some u =>
          cases hc : jGet (.obj fs) "create" with
          | none =>
              simp only [hu, hc, spreadFields]
              simp only [jGet] at hu
              cases p with
              | nil =>
                  simp only [List.nil_append, getPath] at hin ⊢
                  rw [jLookupF_setKeyF_ne fs "update" k _ hne.2.2.1]
                  exact hin
              | cons k1 p' =>
                  simp only [List.cons_append, getPath] at hin ⊢
                  by_cases hk1 : k1 = "update"
                  · subst hk1
                    rw [jLookupF_setKeyF_self]
                    rw [hu] at hin
                    by_cases htu : jsTruthy u
                    · simp only [htu, if_true]
                      have hus : jsize u < n := by
                        have h1 := jsize_lookupF_le fs "update" u hu
                        have : jsize (JValue.obj fs) = 1 + jsizeFields fs := by
                          simp [jsize]
                        omega
                      exact ih u hus rm pid false p' k v hprot hin
                    · simp only [htu]
                      simp only [Bool.false_eq_true, if_false]
                      exact hin
                  · rw [jLookupF_setKeyF_ne fs "update" k1 _ hk1]
                    exact hin
          | some c =>
              simp only [hu, hc, spreadFields]
              simp only [jGet] at hu hc
              cases p with
              | nil =>
                  simp only [List.nil_append, getPath] at hin ⊢
                  rw [jLookupF_setKeyF_ne _ "update" k _ hne.2.2.1]
                  rw [jLookupF_setKeyF_ne fs "create" k _ hne.2.1]
                  exact hin
              | cons k1 p' =>
                  simp only [List.cons_append, getPath] at hin ⊢
                  by_cases hk1u : k1 = "update"
                  · subst hk1u
                    rw [jLookupF_setKeyF_self]
                    rw [hu] at hin
                    by_cases htu : jsTruthy u
                    · simp only [htu, if_true]
                      have hus : jsize u < n := by
                        have h1 := jsize_lookupF_le fs "update" u hu
                        have : jsize (JValue.obj fs) = 1 + jsizeFields fs := by
                          simp [jsize]
                        omega
                      exact ih u hus rm pid false p' k v hprot hin
                    · simp only [htu]
                      simp only [Bool.false_eq_true, if_false]
                      exact hin
                  · rw [jLookupF_setKeyF_ne _ "update" k1 _ hk1u]
                    by_cases hk1c : k1 = "create"
                    · subst hk1c
                      rw [jLookupF_setKeyF_self]
                      rw [hc] at hin
                      by_cases htc : jsTruthy c
                      · simp only [htc, if_true]
                        have hcs : jsize c < n := by
                          have h1 := jsize_lookupF_le fs "create" c hc
                          have : jsize (JValue.obj fs) = 1 + jsizeFields fs := by
                            simp [jsize]
                          omega
                        exact ih c hcs rm pid true p' k v hprot hin
                      · simp only [htc]
                        simp only [Bool.false_eq_true, if_false]
                        exact hin
                    · rw [jLookupF_setKeyF_ne fs "create" k1 _ hk1c]
                      exact hin

theorem pndUpsertVal_arr (items : List JValue) (rm : String)
    (pid : String → Option String) (dmmf : Dmmf) :
    pndUpsertVal (.arr items) rm pid dmmf
      = .arr (items.map (fun it => pndUpsertItem it rm pid dmmf)) := by
  rw [pndUpsertVal]
  congr 1
  rw [attach_map_subtype items _ (fun it => pndUpsertItem it rm pid dmmf)]
  intro x
  rfl

theorem pndUpsertVal_obj (fs : List (String × JValue)) (rm : String)
    (pid : String → Option String) (dmmf : Dmmf) :
    pndUpsertVal (.obj fs) rm pid dmmf = pndUpsertItem (.obj fs) rm pid dmmf := by
  rw [pndUpsertVal] <;> simp

/-- Path preservation through an upsert operation value. -/
theorem pndUpsertVal_path (dmmf : Dmmf) (n : Nat)
    (ih : ∀ (d : JValue), jsize d < n → ∀ (model : String)
      (pid : String → Option String) (b : Bool) (p : List String) (k : String)
      (v : JValue), ProtectedKey dmmf k v → getPath d (p ++ [k]) = some v →
      getPath (processNestedData d model pid dmmf b) (p ++ [k]) = some v)
    (w : JValue) (hsz : jsize w < n) (rm : String)
    (pid : String → Option String) (p : List String) (k : String) (v : JValue)
    (hprot : ProtectedKey dmmf k v) (hin : getPath w (p ++ [k]) = some v) :
    getPath (pndUpsertVal w rm pid dmmf) (p ++ [k]) = some v := by
  match w with
  | .null | .bool _ | .num _ =>
      obtain ⟨k0, rest, hcons⟩ : ∃ k0 rest, p ++ [k] = k0 :: rest := by
        cases p with
        | nil => exact ⟨k, [], rfl⟩
        | cons a as => exact ⟨a, as ++ [k], rfl⟩
      rw [hcons, getPath_prim_cons] at hin
      · exact absurd hin (by simp)
      · simp [isObjLike]
  | .str s =>
      obtain ⟨k0, rest, hcons⟩ : ∃ k0 rest, p ++ [k] = k0 :: rest := by
        cases p with
        | nil => exact ⟨k, [], rfl⟩
        | cons a as => exact ⟨a, as ++ [k], rfl⟩
      rw [hcons, getPath_prim_cons] at hin
      · exact absurd hin (by simp)
      · simp [isObjLike]
  | .obj fs =>
      rw [pndUpsertVal_obj]
      exact pndUpsertItem_path dmmf n ih (.obj fs) hsz rm pid p k v hprot hin
  | .arr items =>
      rw [pndUpsertVal_arr]
      cases p with
      | nil =>
          simp only [List.nil_append, getPath] at hin
          rw [protectedKey_not_digits dmmf k v hprot] at hin
          simp at hin
      | cons k1 p' =>
          simp only [List.cons_append, getPath] at hin ⊢
          by_cases hd : k1.data.all (·.isDigit)
          · simp only [hd, if_true] at hin ⊢
            cases hl : jLookupF (arrSpread items) k1 with
            | none => rw [hl] at hin; simp at hin
            | some it =>
                rw [hl] at hin
                have hmap : jLookupF (arrSpread (items.map
                    (fun it => pndUpsertItem it rm pid dmmf))) k1
                    = some (pndUpsertItem it rm pid dmmf) := by
                  unfold arrSpread
                  rw [arrSpreadFrom_map,
                    jLookupF_map_snd (arrSpreadFrom 0 items) k1
                      (fun x => pndUpsertItem x rm pid dmmf)]
                  rw [show arrSpreadFrom 0 items = arrSpread items from rfl, hl]
                  rfl
                rw [hmap]
                have hmem : it ∈ items := jLookupF_arrSpreadFrom_mem 0 items k1 it hl
                have hit : jsize it < n := by
                  have h1 := jsize_elem_lt items it hmem
                  omega
                exact pndUpsertItem_path dmmf n ih it hit rm pid p' k v hprot hin
          · simp [hd] at hin

/-- The connect-or-create item rewrite of Case 2:
`{ ...item, create: item.create ? processNestedData(item.create, …, true) :
item.create }`. -/
def ccItem (item : JValue) (rm : String) (pid : String → Option String)
    (dmmf : Dmmf) : JValue :=
  .obj (match hc : jGet item "create" with
    | some c =>
        setKeyF (spreadFields item) "create"
          (if jsTruthy c then processNestedData c rm pid dmmf true
           else c)
    | none => spreadFields item)

/-- Path preservation through one connect-or-create item. -/
theorem ccItem_path (dmmf : Dmmf) (n : Nat)
    (ih : ∀ (d : JValue), jsize d < n → ∀ (model : String)
      (pid : String → Option String) (b : Bool) (p : List String) (k : String)
      (v : JValue), ProtectedKey dmmf k v → getPath d (p ++ [k]) = some v →
      getPath (processNestedData d model pid dmmf b) (p ++ [k]) = some v)
    (item : JValue) (hsz : jsize item < n) (rm : String)
    (pid : String → Option String) (p : List String) (k : String) (v : JValue)
    (hprot : ProtectedKey dmmf k v) (hin : getPath item (p ++ [k]) = some v) :
    getPath (ccItem item rm pid dmmf) (p ++ [k]) = some v := by
  obtain ⟨k0, rest, hcons⟩ : ∃ k0 rest, p ++ [k] = k0 :: rest := by
    cases p with
    | nil => exact ⟨k, [], rfl⟩
    | cons a as => exact ⟨a, as ++ [k], rfl⟩
  match item with
  | .null | .bool _ | .num _ =>
      rw [hcons, getPath_prim_cons] at hin
      · exact absurd hin (by simp)
      · simp [isObjLike]
  | .str s =>
      rw [hcons, getPath_prim_cons] at hin
      · exact absurd hin (by simp)
      · simp [isObjLike]
  | .arr xs =>
      have harr : ccItem (.arr xs) rm pid dmmf = .obj (arrSpread xs) := by
        rw [ccItem]
        simp [jGet, spreadFields]
      rw [harr, hcons]
      rw [hcons] at hin
      exact getPath_arrSpread_obj xs k0 rest v hin
  | .obj fs =>
      have hne := protectedKey_ne dmmf k v hprot
      rw [ccItem]
      cases hc : jGet (.obj fs) "create" with
      | none =>
          simp only [hc, spreadFields]
          exact hin
      | some c =>
          simp only [hc, spreadFields]
          simp only [jGet] at hc
          cases p with
          | nil =>
              simp only [List.nil_append, getPath] at hin ⊢
              rw [jLookupF_setKeyF_ne fs "create" k _ hne.2.1]
              exact hin
          | cons k1 p' =>
              simp only [List.cons_append, getPath] at hin ⊢
              by_cases hk1 : k1 = "create"
              · subst hk1
                rw [jLookupF_setKeyF_self]
                rw [hc] at hin
                by_cases htc : jsTruthy c
                · simp only [htc, if_true]
                  have hcs : jsize c < n := by
                    have h1 := jsize_lookupF_le fs "create" c hc
                    have : jsize (JValue.obj fs) = 1 + jsizeFields fs := by
                      simp [jsize]
                    omega
                  exact ih c hcs rm pid true p' k v hprot hin
                · simp only [htc]
                  simp only [Bool.false_eq_true, if_false]
                  exact hin
              · rw [jLookupF_setKeyF_ne fs "create" k1 _ hk1]
                exact hin

theorem pndUpdateMatch1_lookup_ne (w : JValue) (rm : String)
    (pid : String → Option String) (dmmf : Dmmf) (acc : List (String × JValue))
    (k1 : String) (h : k1 ≠ "create") :
    jLookupF (pndUpdateMatch1 w rm pid dmmf acc) k1 = jLookupF acc k1 := by
  rw [pndUpdateMatch1]
  cases hc : jGet w "create" <;>
    simp [jLookupF_setKeyF_ne _ _ _ _ h]

theorem pndUpdateMatch1_lookup_create (w : JValue) (rm : String)
    (pid : String → Option String) (dmmf : Dmmf) (acc : List (String × JValue)) :
    jLookupF (pndUpdateMatch1 w rm pid dmmf acc) "create"
      = match jGet w "create" with
        | some cv => some (processNestedData cv rm pid dmmf true)
        | none => jLookupF acc "create" := by
  rw [pndUpdateMatch1]
  cases hc : jGet w "create" <;> simp [jLookupF_setKeyF_self]

/-- The value a present nested `createMany` operation is rewritten to. -/
def pndCreateManyVal (cm : JValue) (rm : String) (pid : String → Option String)
    (dmmf : Dmmf) : JValue :=
  if jHasField cm "data" then
    match hd : jGet cm "data" with
    | some d =>
        .obj (setKeyF (spreadFields cm) "data"
          (processNestedData d rm pid dmmf true))
    | none => cm
  else processNestedData cm rm pid dmmf true

theorem pndUpdateMatch2_lookup_ne (w : JValue) (rm : String)
    (pid : String → Option String) (dmmf : Dmmf) (acc : List (String × JValue))
    (k1 : String) (h : k1 ≠ "createMany") :
    jLookupF (pndUpdateMatch2 w rm pid dmmf acc) k1 = jLookupF acc k1 := by
  rw [pndUpdateMatch2]
  cases hc : jGet w "createMany" <;>
    simp [jLookupF_setKeyF_ne _ _ _ _ h]

theorem pndUpdateMatch2_lookup_createMany (w : JValue) (rm : String)
    (pid : String → Option String) (dmmf : Dmmf) (acc : List (String × JValue)) :
    jLookupF (pndUpdateMatch2 w rm pid dmmf acc) "createMany"
      = match jGet w "createMany" with
        | some cm => some (pndCreateManyVal cm rm pid dmmf)
        | none => jLookupF acc "createMany" := by
  rw [pndUpdateMatch2]
  cases hc : jGet w "createMany" <;> simp [jLookupF_setKeyF_self, pndCreateManyVal]

theorem pndUpdateMatch3_lookup_ne (w : JValue) (rm : String)
    (pid : String → Option String) (dmmf : Dmmf) (acc : List (String × JValue))
    (k1 : String) (h : k1 ≠ "connectOrCreate") :
    jLookupF (pndUpdateMatch3 w rm pid dmmf acc) k1 = jLookupF acc k1 := by
  rw [pndUpdateMatch3]
  cases hc : jGet w "connectOrCreate" with
  | none => rfl
  | some cc => cases cc <;> simp [jLookupF_setKeyF_ne _ _ _ _ h]

theorem pndUpdateMatch3_lookup_cc (w : JValue) (rm : String)
    (pid : String → Option String) (dmmf : Dmmf) (acc : List (String × JValue)) :
    jLookupF (pndUpdateMatch3 w rm pid dmmf acc) "connectOrCreate"
      = match jGet w "connectOrCreate" with
        | some (.arr items) =>
            some (.arr (items.map (fun it => ccItem it rm pid dmmf)))
        | some cc => some cc
        | none => jLookupF acc "connectOrCreate" := by
  rw [pndUpdateMatch3]
  cases hc : jGet w "connectOrCreate" with
  | none => rfl
  | some cc =>
      cases cc with
      | arr items =>
          simp only [jLookupF_setKeyF_self]
          congr 2
          rw [attach_map_subtype _ _ (fun it => ccItem it rm pid dmmf)]
          intro x
          rw [ccItem]
      | null => simp [jLookupF_setKeyF_self]
      | bool b0 => simp [jLookupF_setKeyF_self]
      | num n0 => simp [jLookupF_setKeyF_self]
      | str s0 => simp [jLookupF_setKeyF_self]
      | obj fs0 => simp [jLookupF_setKeyF_self]

theorem pndUpdateMatch4_lookup_ne (w : JValue) (rm : String)
    (pid : String → Option String) (dmmf : Dmmf) (acc : List (String × JValue))
    (k1 : String) (h : k1 ≠ "upsert") :
    jLookupF (pndUpdateMatch4 w rm pid dmmf acc) k1 = jLookupF acc k1 := by
  rw [pndUpdateMatch4]
  cases hc : jGet w "upsert" <;>
    simp [jLookupF_setKeyF_ne _ _ _ _ h]

theorem pndUpdateMatch4_lookup_upsert (w : JValue) (rm : String)
    (pid : String → Option String) (dmmf : Dmmf) (acc : List (String × JValue)) :
    jLookupF (pndUpdateMatch4 w rm pid dmmf acc) "upsert"
      = match jGet w "upsert" with
        | some uv => some (pndUpsertVal uv rm pid dmmf)
        | none => jLookupF acc "upsert" := by
  rw [pndUpdateMatch4]
  cases hc : jGet w "upsert" <;> simp [jLookupF_setKeyF_self]

/-- Path preservation through a nested `createMany` operation value. -/
theorem pndCreateManyVal_path (dmmf : Dmmf) (n : Nat)
    (ih : ∀ (d : JValue), jsize d < n → ∀ (model : String)
      (pid : String → Option String) (b : Bool) (p : List String) (k : String)
      (v : JValue), ProtectedKey dmmf k v → getPath d (p ++ [k]) = some v →
      getPath (processNestedData d model pid dmmf b) (p ++ [k]) = some v)
    (cm : JValue) (hsz : jsize cm < n) (rm : String)
    (pid : String → Option String) (p : List String) (k : String) (v : JValue)
    (hprot : ProtectedKey dmmf k v) (hin : getPath cm (p ++ [k]) = some v) :
    getPath (pndCreateManyVal cm rm pid dmmf) (p ++ [k]) = some v := by
  have hne := protectedKey_ne dmmf k v hprot
  unfold pndCreateManyVal
  by_cases hhd : jHasField cm "data" = true
  · cases hd : jGet cm "data" with
    | none => simp [jHasField, hd] at hhd
    | some d =>
        simp only [hhd, if_true, hd]
        obtain ⟨fs, hobj, hlf⟩ := jGet_some_obj cm "data" d hd
        subst hobj
        simp only [spreadFields]
        cases p with
        | nil =>
            simp only [List.nil_append, getPath] at hin ⊢
            rw [jLookupF_setKeyF_ne fs "data" k _ hne.1]
            exact hin
        | cons k1 p' =>
            simp only [List.cons_append, getPath] at hin ⊢
            by_cases hk1 : k1 = "data"
            · subst hk1
              rw [jLookupF_setKeyF_self]
              rw [hlf] at hin
              have hds : jsize d < n := by
                have h1 := jsize_jGet_lt _ _ _ hd
                omega
              exact ih d hds rm pid true p' k v hprot hin
            · rw [jLookupF_setKeyF_ne fs "data" k1 _ hk1]
              exact hin
  · simp only [Bool.not_eq_true] at hhd
    simp only [hhd]
    simp only [Bool.false_eq_true, if_false]
    exact ih cm hsz rm pid true p k v hprot hin

theorem getPath_obj_cons_some (fs : List (String × JValue)) (k : String)
    (p : List String) (w : JValue) (h : jLookupF fs k = some w) :
    getPath (.obj fs) (k :: p) = getPath w p := by
  simp [getPath, h]

theorem getPath_obj_cons_none (fs : List (String × JValue)) (k : String)
    (p : List String) (h : jLookupF fs k = none) :
    getPath (.obj fs) (k :: p) = none := by
  simp [getPath, h]

theorem pndEntry_eq (kvs : List (String × JValue)) (model : String)
    (pid : String → Option String) (dmmf : Dmmf) (b : Bool) (k0 : String)
    (w : JValue) :
    pndEntry kvs model pid dmmf b k0 w
      = if !(jsTruthy w && isObjLike w) then w
        else if isRelationOperation k0 then
          match (((addRootIdFields kvs model pid b).map Prod.fst).filter
              (fun f => !isRelationOperation f)).findSome?
              (fun rf => findRelationModel dmmf model rf) with
          | none => w
          | some rm =>
              if k0 = "createMany" && jHasField w "data" then
                pndCreateManyVal w rm pid dmmf
              else if k0 = "upsert" then
                pndUpsertVal w rm pid dmmf
              else if k0 = "connectOrCreate" then
                ccItem w rm pid dmmf
              else if k0 = "create" || k0 = "createMany" then
                processNestedData w rm pid dmmf true
              else w
        else
          match findRelationModel dmmf model k0 with
          | none => w
          | some rm =>
              .obj (pndUpdateMatch4 w rm pid dmmf
                (pndUpdateMatch3 w rm pid dmmf
                  (pndUpdateMatch2 w rm pid dmmf
                    (pndUpdateMatch1 w rm pid dmmf
                      (spreadFields w))))) := by
  rw [pndEntry]
  split
  · rfl
  split
  · rename_i hop
    congr 1
    funext rm
    split
    · rename_i h1
      simp only [Bool.and_eq_true, decide_eq_true_eq] at h1
      unfold pndCreateManyVal
      rw [if_pos h1.2]
    · rfl
  · rfl

/-- Path preservation through one entry of the rewriter's object loop. -/
theorem pndEntry_path (dmmf : Dmmf) (n : Nat)
    (ih : ∀ (d : JValue), jsize d < n → ∀ (model : String)
      (pid : String → Option String) (b : Bool) (p : List String) (k : String)
      (v : JValue), ProtectedKey dmmf k v → getPath d (p ++ [k]) = some v →
      getPath (processNestedData d model pid dmmf b) (p ++ [k]) = some v)
    (kvs : List (String × JValue)) (model : String) (pid : String → Option String)
    (b : Bool) (k0 : String) (w : JValue) (hw : jsize w < n)
    (p : List String) (k : String) (v : JValue) (hprot : ProtectedKey dmmf k v)
    (hin : getPath w (p ++ [k]) = some v) :
    getPath (pndEntry kvs model pid dmmf b k0 w) (p ++ [k]) = some v := by
  have hne := protectedKey_ne dmmf k v hprot
  rw [pndEntry_eq]
  split
  · exact hin
  rename_i hg
  split
  · -- CASE 1: k0 is a relation operation
    split
    · exact hin
    rename_i rm hfs
    split
    · exact pndCreateManyVal_path dmmf n ih w hw rm pid p k v hprot hin
    split
    · exact pndUpsertVal_path dmmf n ih w hw rm pid p k v hprot hin
    split
    · exact ccItem_path dmmf n ih w hw rm pid p k v hprot hin
    split
    · exact ih w hw rm pid true p k v hprot hin
    · exact hin
  · -- CASE 2: k0 may be a relation field
    split
    · exact hin
    rename_i rm hrm
    have hgg : (jsTruthy w && isObjLike w) = true := by
      revert hg
      cases (jsTruthy w && isObjLike w) <;> simp
    match w with
    | .null | .bool _ | .num _ | .str _ =>
        simp [jsTruthy, isObjLike] at hgg
    | .arr xs =>
        have hM1 : pndUpdateMatch1 (.arr xs) rm pid dmmf (spreadFields (.arr xs))
            = arrSpread xs := by
          rw [pndUpdateMatch1]
          simp [jGet, spreadFields]
        have hM2 : pndUpdateMatch2 (.arr xs) rm pid dmmf (arrSpread xs)
            = arrSpread xs := by
          rw [pndUpdateMatch2]
          simp [jGet]
        have hM3 : pndUpdateMatch3 (.arr xs) rm pid dmmf (arrSpread xs)
            = arrSpread xs := by
          rw [pndUpdateMatch3]
          simp [jGet]
        have hM4 : pndUpdateMatch4 (.arr xs) rm pid dmmf (arrSpread xs)
            = arrSpread xs := by
          rw [pndUpdateMatch4]
          simp [jGet]
        rw [hM1, hM2, hM3, hM4]
        obtain ⟨ka, resta, hconsa⟩ : ∃ ka resta, p ++ [k] = ka :: resta := by
          cases p with
          | nil => exact ⟨k, [], rfl⟩
          | cons a as => exact ⟨a, as ++ [k], rfl⟩
        rw [hconsa] at hin ⊢
        exact getPath_arrSpread_obj xs ka resta v hin
    | .obj fs =>
        have hwf : jsize (JValue.obj fs) = 1 + jsizeFields fs := by simp [jsize]
        simp only [spreadFields]
        cases p with
        | nil =>
            simp only [List.nil_append] at hin ⊢
            simp only [getPath] at hin
            cases hl : jLookupF fs k with
            | none => rw [hl] at hin; simp at hin
            | some v0 =>
                rw [hl] at hin
                simp only [getPath] at hin
                have hlk : jLookupF (pndUpdateMatch4 (JValue.obj fs) rm pid dmmf
                    (pndUpdateMatch3 (JValue.obj fs) rm pid dmmf
                      (pndUpdateMatch2 (JValue.obj fs) rm pid dmmf
                        (pndUpdateMatch1 (JValue.obj fs) rm pid dmmf fs)))) k
                    = some v0 := by
                  rw [pndUpdateMatch4_lookup_ne _ _ _ _ _ _ hne.2.2.2.2.2]
                  rw [pndUpdateMatch3_lookup_ne _ _ _ _ _ _ hne.2.2.2.2.1]
                  rw [pndUpdateMatch2_lookup_ne _ _ _ _ _ _ hne.2.2.2.1]
                  rw [pndUpdateMatch1_lookup_ne _ _ _ _ _ _ hne.2.1]
                  exact hl
                rw [getPath_obj_cons_some _ _ _ _ hlk]
                simp [getPath, hin]
        | cons k1 p' =>
            simp only [List.cons_append] at hin ⊢
            simp only [getPath] at hin
            cases hl : jLookupF fs k1 with
            | none => rw [hl] at hin; simp at hin
            | some w1 =>
                rw [hl] at hin
                have hw1 : jsize w1 < n := by
                  have h1 := jsize_lookupF_le fs k1 w1 hl
                  omega
                by_cases hk1up : k1 = "upsert"
                · subst hk1up
                  have hlk : jLookupF (pndUpdateMatch4 (JValue.obj fs) rm pid dmmf
                      (pndUpdateMatch3 (JValue.obj fs) rm pid dmmf
                        (pndUpdateMatch2 (JValue.obj fs) rm pid dmmf
                          (pndUpdateMatch1 (JValue.obj fs) rm pid dmmf fs)))) "upsert"
                      = some (pndUpsertVal w1 rm pid dmmf) := by
                    rw [pndUpdateMatch4_lookup_upsert]
                    simp [jGet, hl]
                  rw [getPath_obj_cons_some _ _ _ _ hlk]
                  exact pndUpsertVal_path dmmf n ih w1 hw1 rm pid p' k v hprot hin
                · by_cases hk1cc : k1 = "connectOrCreate"
                  · subst hk1cc
                    match w1, hl, hin, hw1 with
                    | .arr items, hl, hin, hw1 =>
                        have hlk0 : jLookupF (pndUpdateMatch4 (JValue.obj fs) rm pid
                            dmmf (pndUpdateMatch3 (JValue.obj fs) rm pid dmmf
                              (pndUpdateMatch2 (JValue.obj fs) rm pid dmmf
                                (pndUpdateMatch1 (JValue.obj fs) rm pid dmmf fs))))
                            "connectOrCreate"
                            = some (.arr (items.map (fun it => ccItem it rm pid dmmf))) := by
                          rw [pndUpdateMatch4_lookup_ne _ _ _ _ _ _ (by decide)]
                          rw [pndUpdateMatch3_lookup_cc]
                          simp [jGet, hl]
                        rw [getPath_obj_cons_some _ _ _ _ hlk0]
                        cases p' with
                        | nil =>
                            simp only [List.nil_append, getPath] at hin
                            rw [protectedKey_not_digits dmmf k v hprot] at hin
                            simp at hin
                        | cons k2 p'' =>
                            simp only [List.cons_append, getPath] at hin ⊢
                            by_cases hd2 : k2.data.all (·.isDigit)
                            · simp only [hd2, if_true] at hin ⊢
                              cases hl2 : jLookupF (arrSpread items) k2 with
                              | none => rw [hl2] at hin; simp at hin
                              | some it =>
                                  rw [hl2] at hin
                                  have hmap : jLookupF (arrSpread (items.map
                                      (fun it => ccItem it rm pid dmmf))) k2
                                      = some (ccItem it rm pid dmmf) := by
                                    unfold arrSpread
                                    rw [arrSpreadFrom_map,
                                      jLookupF_map_snd (arrSpreadFrom 0 items) k2
                                        (fun x => ccItem x rm pid dmmf)]
                                    rw [show arrSpreadFrom 0 items = arrSpread items
                                      from rfl, hl2]
                                    rfl
                                  rw [hmap]
                                  have hmem : it ∈ items :=
                                    jLookupF_arrSpreadFrom_mem 0 items k2 it hl2
                                  have hit : jsize it < n := by
                                    have h1 := jsize_elem_lt items it hmem
                                    have h2 := jsize_lookupF_le fs "connectOrCreate"
                                      (.arr items) hl
                                    omega
                                  exact ccItem_path dmmf n ih it hit rm pid p'' k v
                                    hprot hin
                            · simp [hd2] at hin
                    | .null, hl, hin, hw1 =>
                        have hlk0 : jLookupF (pndUpdateMatch4 (JValue.obj fs) rm pid
                            dmmf (pndUpdateMatch3 (JValue.obj fs) rm pid dmmf
                              (pndUpdateMatch2 (JValue.obj fs) rm pid dmmf
                                (pndUpdateMatch1 (JValue.obj fs) rm pid dmmf fs))))
                            "connectOrCreate" = some .null := by
                          rw [pndUpdateMatch4_lookup_ne _ _ _ _ _ _ (by decide)]
                          rw [pndUpdateMatch3_lookup_cc]
                          simp [jGet, hl]
                        rw [getPath_obj_cons_some _ _ _ _ hlk0]
                        exact hin
                    | .bool b1, hl, hin, hw1 =>
                        have hlk0 : jLookupF (pndUpdateMatch4 (JValue.obj fs) rm pid
                            dmmf (pndUpdateMatch3 (JValue.obj fs) rm pid dmmf
                              (pndUpdateMatch2 (JValue.obj fs) rm pid dmmf
                                (pndUpdateMatch1 (JValue.obj fs) rm pid dmmf fs))))
                            "connectOrCreate" = some (.bool b1) := by
                          rw [pndUpdateMatch4_lookup_ne _ _ _ _ _ _ (by decide)]
                          rw [pndUpdateMatch3_lookup_cc]
                          simp [jGet, hl]
                        rw [getPath_obj_cons_some _ _ _ _ hlk0]
                        exact hin
                    | .num n1, hl, hin, hw1 =>
                        have hlk0 : jLookupF (pndUpdateMatch4 (JValue.obj fs) rm pid
                            dmmf (pndUpdateMatch3 (JValue.obj fs) rm pid dmmf
                              (pndUpdateMatch2 (JValue.obj fs) rm pid dmmf
                                (pndUpdateMatch1 (JValue.obj fs) rm pid dmmf fs))))
                            "connectOrCreate" = some (.num n1) := by
                          rw [pndUpdateMatch4_lookup_ne _ _ _ _ _ _ (by decide)]
                          rw [pndUpdateMatch3_lookup_cc]
                          simp [jGet, hl]
                        rw [getPath_obj_cons_some _ _ _ _ hlk0]
                        exact hin
                    | .str s1, hl, hin, hw1 =>
                        have hlk0 : jLookupF (pndUpdateMatch4 (JValue.obj fs) rm pid
                            dmmf (pndUpdateMatch3 (JValue.obj fs) rm pid dmmf
                              (pndUpdateMatch2 (JValue.obj fs) rm pid dmmf
                                (pndUpdateMatch1 (JValue.obj fs) rm pid dmmf fs))))
                            "connectOrCreate" = some (.str s1) := by
                          rw [pndUpdateMatch4_lookup_ne _ _ _ _ _ _ (by decide)]
                          rw [pndUpdateMatch3_lookup_cc]
                          simp [jGet, hl]
                        rw [getPath_obj_cons_some _ _ _ _ hlk0]
                        exact hin
                    | .obj fs1, hl, hin, hw1 =>
                        have hlk0 : jLookupF (pndUpdateMatch4 (JValue.obj fs) rm pid
                            dmmf (pndUpdateMatch3 (JValue.obj fs) rm pid dmmf
                              (pndUpdateMatch2 (JValue.obj fs) rm pid dmmf
                                (pndUpdateMatch1 (JValue.obj fs) rm pid dmmf fs))))
                            "connectOrCreate" = some (.obj fs1) := by
                          rw [pndUpdateMatch4_lookup_ne _ _ _ _ _ _ (by decide)]
                          rw [pndUpdateMatch3_lookup_cc]
                          simp [jGet, hl]
                        rw [getPath_obj_cons_some _ _ _ _ hlk0]
                        exact hin
                  · by_cases hk1cm : k1 = "createMany"
                    · subst hk1cm
                      have hlk : jLookupF (pndUpdateMatch4 (JValue.obj fs) rm pid dmmf
                          (pndUpdateMatch3 (JValue.obj fs) rm pid dmmf
                            (pndUpdateMatch2 (JValue.obj fs) rm pid dmmf
                              (pndUpdateMatch1 (JValue.obj fs) rm pid dmmf fs))))
                          "createMany"
                          = some (pndCreateManyVal w1 rm pid dmmf) := by
                        rw [pndUpdateMatch4_lookup_ne _ _ _ _ _ _ (by decide)]
                        rw [pndUpdateMatch3_lookup_ne _ _ _ _ _ _ (by decide)]
                        rw [pndUpdateMatch2_lookup_createMany]
                        simp [jGet, hl]
                      rw [getPath_obj_cons_some _ _ _ _ hlk]
                      exact pndCreateManyVal_path dmmf n ih w1 hw1 rm pid p' k v
                        hprot hin
                    · by_cases hk1c : k1 = "create"
                      · subst hk1c
                        have hlk : jLookupF (pndUpdateMatch4 (JValue.obj fs) rm pid
                            dmmf (pndUpdateMatch3 (JValue.obj fs) rm pid dmmf
                              (pndUpdateMatch2 (JValue.obj fs) rm pid dmmf
                                (pndUpdateMatch1 (JValue.obj fs) rm pid dmmf fs))))
                            "create"
                            = some (processNestedData w1 rm pid dmmf true) := by
                          rw [pndUpdateMatch4_lookup_ne _ _ _ _ _ _ (by decide)]
                          rw [pndUpdateMatch3_lookup_ne _ _ _ _ _ _ (by decide)]
                          rw [pndUpdateMatch2_lookup_ne _ _ _ _ _ _ (by decide)]
                          rw [pndUpdateMatch1_lookup_create]
                          simp [jGet, hl]
                        rw [getPath_obj_cons_some _ _ _ _ hlk]
                        exact ih w1 hw1 rm pid true p' k v hprot hin
                      · have hlk : jLookupF (pndUpdateMatch4 (JValue.obj fs) rm pid
                            dmmf (pndUpdateMatch3 (JValue.obj fs) rm pid dmmf
                              (pndUpdateMatch2 (JValue.obj fs) rm pid dmmf
                                (pndUpdateMatch1 (JValue.obj fs) rm pid dmmf fs)))) k1
                            = some w1 := by
                          rw [pndUpdateMatch4_lookup_ne _ _ _ _ _ _ hk1up]
                          rw [pndUpdateMatch3_lookup_ne _ _ _ _ _ _ hk1cc]
                          rw [pndUpdateMatch2_lookup_ne _ _ _ _ _ _ hk1cm]
                          rw [pndUpdateMatch1_lookup_ne _ _ _ _ _ _ hk1c]
                          exact hl
                        rw [getPath_obj_cons_some _ _ _ _ hlk]
                        exact hin

theorem getPath_nil (v : JValue) : getPath v [] = some v := by
  cases v <;> rfl

theorem pndEntry_protected_fixed (dmmf : Dmmf) (kvs : List (String × JValue))
    (model : String) (pid : String → Option String) (b : Bool) (k : String)
    (v : JValue) (hprot : ProtectedKey dmmf k v) :
    pndEntry kvs model pid dmmf b k v = v := by
  rw [pndEntry_eq]
  rcases hprot with ⟨hk, hv, hobj⟩ | ⟨hk, hres⟩
  · rw [if_pos]
    simp [hobj]
  · by_cases hg : (!(jsTruthy v && isObjLike v)) = true
    · rw [if_pos hg]
    · rw [if_neg hg]
      have hop : isRelationOperation k = false := by
        simp only [passThroughKeys, List.mem_cons, List.not_mem_nil, or_false] at hk
        rcases hk with h | h | h <;> subst h <;> decide
      rw [if_neg (by simp [hop])]
      rw [hres model]

/-- The master depth lemma: the rewriter preserves, at every nesting depth,
the value found under a protected key (a truthy primitive `id`, or a
`connect`/`disconnect`/`delete` sub-tree when no relation field carries
that name). -/
theorem pnd_path_aux (dmmf : Dmmf) : ∀ (n : Nat) (d : JValue), jsize d < n →
    ∀ (model : String) (pid : String → Option String) (b : Bool)
      (p : List String) (k : String) (v : JValue), ProtectedKey dmmf k v →
    getPath d (p ++ [k]) = some v →
    getPath (processNestedData d model pid dmmf b) (p ++ [k]) = some v := by
  intro n
  induction n with
  | zero =>
      intro d h
      omega
  | succ n ihn =>
    intro d hsz model pid b p k v hprot hin
    match d with
    | .null => rw [pnd_null]; exact hin
    | .bool x => rw [pnd_bool]; exact hin
    | .num x => rw [pnd_num]; exact hin
    | .str s => rw [pnd_str]; exact hin
    | .arr xs =>
        rw [pnd_arr]
        cases p with
        | nil =>
            simp only [List.nil_append, getPath] at hin
            rw [protectedKey_not_digits dmmf k v hprot] at hin
            simp at hin
        | cons k1 p' =>
            simp only [List.cons_append, getPath] at hin ⊢
            by_cases hd1 : k1.data.all (·.isDigit)
            · simp only [hd1, if_true] at hin ⊢
              cases hl : jLookupF (arrSpread xs) k1 with
              | none => rw [hl] at hin; simp at hin
              | some x =>
                  rw [hl] at hin
                  have hmap : jLookupF (arrSpread (xs.map
                      (fun y => processNestedData y model pid dmmf b))) k1
                      = some (processNestedData x model pid dmmf b) := by
                    unfold arrSpread
                    rw [arrSpreadFrom_map,
                      jLookupF_map_snd (arrSpreadFrom 0 xs) k1
                        (fun y => processNestedData y model pid dmmf b)]
                    rw [show arrSpreadFrom 0 xs = arrSpread xs from rfl, hl]
                    rfl
                  rw [hmap]
                  have hmem : x ∈ xs := jLookupF_arrSpreadFrom_mem 0 xs k1 x hl
                  have hx : jsize x < n := by
                    have h1 := jsize_elem_lt xs x hmem
                    omega
                  exact ihn x hx model pid b p' k v hprot hin
            · simp [hd1] at hin
    | .obj kvs =>
        rw [pnd_obj]
        have hwf : jsize (JValue.obj kvs) = 1 + jsizeFields kvs := by simp [jsize]
        cases p with
        | nil =>
            simp only [List.nil_append] at hin ⊢
            simp only [getPath] at hin
            cases hl : jLookupF kvs k with
            | none => rw [hl] at hin; simp at hin
            | some v0 =>
                rw [hl] at hin
                simp only [getPath] at hin
                cases hin
                have hl1 : jLookupF (addRootIdFields kvs model pid b) k = some v := by
                  rcases protectedKey_cases dmmf k v hprot with hk | hk | hk | hk
                  · subst hk
                    rcases hprot with ⟨_, hv, _⟩ | ⟨hk2, _⟩
                    · rw [addRootIdFields_id_truthy kvs model pid b
                        (by simp [jsTruthyO, hl, hv])]
                      exact hl
                    · simp [passThroughKeys] at hk2
                  all_goals subst hk
                  all_goals rw [addRootIdFields_lookup_ne kvs model pid b _
                    (by decide)]
                  all_goals exact hl
                have hmap : jLookupF ((addRootIdFields kvs model pid b).map
                    (fun kv => (kv.1, pndEntry kvs model pid dmmf b kv.1 kv.2))) k
                    = some (pndEntry kvs model pid dmmf b k v) := by
                  rw [jLookupF_map_pair (addRootIdFields kvs model pid b) k
                    (pndEntry kvs model pid dmmf b)]
                  rw [hl1]
                  rfl
                rw [getPath_obj_cons_some _ _ _ _ hmap]
                rw [pndEntry_protected_fixed dmmf kvs model pid b k v hprot]
                exact getPath_nil v
        | cons k1 p' =>
            simp only [List.cons_append] at hin ⊢
            simp only [getPath] at hin
            cases hl : jLookupF kvs k1 with
            | none => rw [hl] at hin; simp at hin
            | some w =>
                rw [hl] at hin
                have hwlt : jsize w < n := by
                  have h1 := jsize_lookupF_le kvs k1 w hl
                  omega
                have hl1 : jLookupF (addRootIdFields kvs model pid b) k1 = some w := by
                  by_cases hk1 : k1 = "id"
                  · subst hk1
                    by_cases hT : jsTruthyO (jLookupF kvs "id") = true
                    · rw [addRootIdFields_id_truthy kvs model pid b hT]
                      exact hl
                    · exfalso
                      rw [hl] at hT
                      simp only [jsTruthyO, Bool.not_eq_true] at hT
                      have hprim := jsTruthy_false_not_objLike w hT
                      obtain ⟨ka, resta, hconsa⟩ : ∃ ka resta,
                          p' ++ [k] = ka :: resta := by
                        cases p' with
                        | nil => exact ⟨k, [], rfl⟩
                        | cons a as => exact ⟨a, as ++ [k], rfl⟩
                      have hin2 : getPath w (p' ++ [k]) = some v := hin
                      rw [hconsa, getPath_prim_cons w hprim] at hin2
                      exact absurd hin2 (by simp)
                  · rw [addRootIdFields_lookup_ne kvs model pid b k1 hk1]
                    exact hl
                have hmap : jLookupF ((addRootIdFields kvs model pid b).map
                    (fun kv => (kv.1, pndEntry kvs model pid dmmf b kv.1 kv.2))) k1
                    = some (pndEntry kvs model pid dmmf b k1 w) := by
                  rw [jLookupF_map_pair (addRootIdFields kvs model pid b) k1
                    (pndEntry kvs model pid dmmf b)]
                  rw [hl1]
                  rfl
                rw [getPath_obj_cons_some _ _ _ _ hmap]
                exact pndEntry_path dmmf n ihn kvs model pid b k1 w hwlt p' k v
                  hprot hin

/-- Protected-key preservation, stated without the size bookkeeping. -/
theorem pnd_preserves_protected (dmmf : Dmmf) (data : JValue) (model : String)
    (pid : String → Option String) (b : Bool) (p : List String) (k : String)
    (v : JValue) (hprot : ProtectedKey dmmf k v)
    (hin : getPath data (p ++ [k]) = some v) :
    getPath (processNestedData data model pid dmmf b) (p ++ [k]) = some v :=
  pnd_path_aux dmmf (jsize data + 1) data (by omega) model pid b p k v hprot hin

/-- First-match lookup in a prefix map (`modelName in prefixes` plus read). -/
def jLookupS : List (String × String) → String → Option String
  | [], _ => none
  | (k', v) :: rest, k => if k' = k then some v else jLookupS rest k

/-- The Prefix Configuration's `prefixes` field: a map from model name to
prefix string, or a function returning a prefix or `null`. -/
inductive Prefixes where
  | map : List (String × String) → Prefixes
  | fn : (String → Option String) → Prefixes

/-- `prefixedId` from `createPrefixedIdsExtension` (`src/index.ts`): build a
full identifier for a model, or `null` when no prefix is configured. -/
def prefixedId (prefixes : Prefixes) (idGenerator : String → String)
    (modelName : String) : Option String :=
  match prefixes with
  | .fn f =>
      match f modelName with
      | none => none
      | some pfx => some (idGenerator pfx)
  | .map m =>
      match jLookupS m modelName with
      | some pfx => some (idGenerator pfx)
      | none => none

/-- The per-element id assignment of the top-level `createMany` handler:
`if (!item.id) { const id = prefixedId(model); if (id) { item.id = id; } }`. -/
def cmAssignId (item : JValue) (pid : String → Option String) (model : String) :
    JValue :=
  if !(jsTruthyO (jGet item "id")) then
    match pid model with
    | some g => if g = "" then item else jSet item "id" (.str g)
    | none => item
  else item

/-- The root-id step shared by the `create`, `upsert` and `connectOrCreate`
handlers, applied to the payload under `key` ("data" or "create"):
`if (args[key] && !args[key].id) { const id = prefixedId(model); if (id)
{ args[key].id = id; } }` (for `create` the `args.data` guard is already
established by the caller). -/
def assignRootId (args : JValue) (key : String) (pid : String → Option String)
    (model : String) : JValue :=
  if !(jsTruthyO (jGet (jGetD args key) "id")) then
    match pid model with
    | some g => if g = "" then args else jSet args key (jSet (jGetD args key) "id" (.str g))
    | none => args
  else args

/-- The argument transformation performed by `createOperationHandler`
(`src/index.ts`) before the mutated `args` are forwarded to the
continuation `query`.  The `if (dmmf)` guards of the source are always
taken: `createPrefixedIdsExtension` throws at construction time when no
DMMF is available, so a handler only ever runs with one. -/
def createOperationHandler (operation : String) (prefixes : Prefixes)
    (idGenerator : String → String) (dmmf : Dmmf) (model : String)
    (args : JValue) : JValue :=
  let pid := prefixedId prefixes idGenerator
  if operation = "upsert" then
    let args1 := if jsTruthyO (jGet args "create") then assignRootId args "create" pid model
      else args
    let args2 := if jsTruthyO (jGet args1 "create") then
        jSet args1 "create"
          (processNestedData (jGetD args1 "create") model pid dmmf true)
      else args1
    if jsTruthyO (jGet args2 "update") then
      jSet args2 "update"
        (processNestedData (jGetD args2 "update") model pid dmmf false)
    else args2
  else if operation = "connectOrCreate" then
    let args1 := if jsTruthyO (jGet args "create") then assignRootId args "create" pid model
      else args
    if jsTruthyO (jGet args1 "create") then
      jSet args1 "create"
        (processNestedData (jGetD args1 "create") model pid dmmf true)
    else args1
  else if jsTruthyO (jGet args "data") then
    if operation = "createMany" then
      match jGet args "data" with
      | some (.arr xs) =>
          jSet args "data" (.arr (xs.map (fun item => cmAssignId item pid model)))
      | _ => args
    else if operation = "create" then
      let args1 := assignRootId args "data" pid model
      jSet args1 "data"
        (processNestedData (jGetD args1 "data") model pid dmmf true)
    else if operation = "update" || operation = "updateMany" then
      jSet args "data"
        (processNestedData (jGetD args "data") model pid dmmf false)
    else args
  else args

/-- Modelled from the external `nanoid` dependency's contract (the spec
treats the identifier-string primitive as a pluggable external function):
`customAlphabet(alphabet, size)` returns a generator producing `size`
characters drawn from `alphabet`; the randomness source is abstracted as
an oracle choosing an index for each position. -/
def customAlphabet (alphabet : String) (size : Nat) (oracle : Nat → Nat) :
    Unit → String :=
  fun _ =>
    String.mk ((List.range size).map
      (fun i => alphabet.data.getD (oracle i % alphabet.data.length) 'a'))

/-- `defaultIdGenerator` from `src/index.ts`, over the modelled
`customAlphabet`. -/
def defaultIdGenerator (oracle : Nat → Nat) (pfx : String) : String :=
  let nanoid := customAlphabet
    "0123456789abcdefghijklmnopqrstuvwxyzABCDEFGHIJKLMNOPQRSTUVWXYZ" 24 oracle
  pfx ++ "_" ++ nanoid ()

theorem pndEntry_no_relations (dmmf : Dmmf) (kvs : List (String × JValue))
    (model : String) (pid : String → Option String) (b : Bool) (k0 : String)
    (w : JValue) (hres : ∀ m f, findRelationModel dmmf m f = none) :
    pndEntry kvs model pid dmmf b k0 w = w := by
  rw [pndEntry_eq]
  by_cases hg : (!(jsTruthy w && isObjLike w)) = true
  · rw [if_pos hg]
  · rw [if_neg hg]
    by_cases hop : isRelationOperation k0 = true
    · rw [if_pos hop]
      have hfs : (((addRootIdFields kvs model pid b).map Prod.fst).filter
          (fun f => !isRelationOperation f)).findSome?
          (fun rf => findRelationModel dmmf model rf) = none := by
        rw [List.findSome?_eq_none]
        intro x _
        exact hres model x
      rw [hfs]
    · rw [if_neg hop]
      rw [hres model k0]

theorem setKeyF_self_value (fs : List (String × JValue)) (k : String) (v : JValue)
    (h : jLookupF fs k = some v) : setKeyF fs k v = fs := by
  induction fs with
  | nil => simp [jLookupF] at h
  | cons kv rest ih =>
    obtain ⟨k', w⟩ := kv
    simp only [jLookupF] at h
    by_cases hk : k' = k
    · subst hk
      simp at h
      simp [setKeyF, h]
    · simp [hk] at h
      simp [setKeyF, hk, ih h]

/-- With no configured prefixes and no resolvable relation fields the
rewriter is the identity. -/
theorem pnd_identity (dmmf : Dmmf) (hres : ∀ m f, findRelationModel dmmf m f = none)
    (pid : String → Option String) (hpid : ∀ m, pid m = none) :
    ∀ (n : Nat) (d : JValue), jsize d < n → ∀ (model : String) (b : Bool),
    processNestedData d model pid dmmf b = d := by
  intro n
  induction n with
  | zero => intro d h; omega
  | succ n ihn =>
    intro d hsz model b
    match d with
    | .null => exact pnd_null model pid dmmf b
    | .bool x => exact pnd_bool x model pid dmmf b
    | .num x => exact pnd_num x model pid dmmf b
    | .str s => exact pnd_str s model pid dmmf b
    | .arr xs =>
        rw [pnd_arr]
        congr 1
        conv_rhs => rw [← List.map_id xs]
        apply List.map_congr_left
        intro x hx
        have h1 := jsize_elem_lt xs x hx
        exact ihn x (by omega) model b
    | .obj kvs =>
        rw [pnd_obj]
        have hA : addRootIdFields kvs model pid b = kvs := by
          unfold addRootIdFields
          rw [hpid model]
          split <;> rfl
        rw [hA]
        congr 1
        have : (fun (kv : String × JValue) =>
            (kv.1, pndEntry kvs model pid dmmf b kv.1 kv.2))
            = (fun kv => (kv.1, kv.2)) := by
          funext kv
          rw [pndEntry_no_relations dmmf kvs model pid b kv.1 kv.2 hres]
        rw [this]
        simp

/-- With the root flag off the rewriter never touches the root `id` entry
(provided, as in any real schema, no relation field is named `id`). -/
theorem pnd_root_id_not_added (dmmf : Dmmf) (d : JValue) (model : String)
    (pid : String → Option String)
    (hid : ∀ m, findRelationModel dmmf m "id" = none) :
    jGet (processNestedData d model pid dmmf false) "id" = jGet d "id" := by
  match d with
  | .null => rw [pnd_null]
  | .bool x => rw [pnd_bool]
  | .num x => rw [pnd_num]
  | .str s => rw [pnd_str]
  | .arr xs => rw [pnd_arr]; simp [jGet]
  | .obj kvs =>
      rw [pnd_obj, addRootIdFields_not_root]
      simp only [jGet]
      rw [jLookupF_map_pair kvs "id" (pndEntry kvs model pid dmmf false)]
      cases hl : jLookupF kvs "id" with
      | none => rfl
      | some w =>
          simp only [Option.map_some']
          congr 1
          rw [pndEntry_eq]
          by_cases hg : (!(jsTruthy w && isObjLike w)) = true
          · rw [if_pos hg]
          · rw [if_neg hg]
            rw [if_neg (by simp [isRelationOperation, RELATION_OPERATIONS])]
            rw [hid model]

/-- When the root `id` is missing or falsy and a (truthy) identifier is
produced for the model, the rewriter assigns it at the root. -/
theorem pnd_root_id_assigned (dmmf : Dmmf) (kvs : List (String × JValue))
    (model : String) (pid : String → Option String) (g : String)
    (hfalsy : jsTruthyO (jLookupF kvs "id") = false)
    (hpid : pid model = some g) (hg : g ≠ "") :
    jGet (processNestedData (.obj kvs) model pid dmmf true) "id"
      = some (.str g) := by
  rw [pnd_obj]
  have hA : addRootIdFields kvs model pid true = setKeyF kvs "id" (.str g) := by
    unfold addRootIdFields
    rw [hfalsy, hpid]
    simp [hg]
  rw [hA]
  simp only [jGet]
  rw [jLookupF_map_pair (setKeyF kvs "id" (.str g)) "id"
    (pndEntry kvs model pid dmmf true)]
  rw [jLookupF_setKeyF_self]
  simp only [Option.map_some']
  congr 1
  rw [pndEntry_eq]
  rw [if_pos (by simp [jsTruthy, isObjLike])]

/-- A small schema for concrete instances: `User` has relation fields
`posts → Post` and `comments → Comment`; `Post` has `categories → Category`. -/
def demoDmmf : Dmmf :=
  ⟨[⟨"User", [⟨"id", "scalar", "String"⟩, ⟨"name", "scalar", "String"⟩,
      ⟨"posts", "object", "Post"⟩, ⟨"comments", "object", "Comment"⟩]⟩,
    ⟨"Post", [⟨"id", "scalar", "String"⟩, ⟨"title", "scalar", "String"⟩,
      ⟨"categories", "object", "Category"⟩]⟩,
    ⟨"Category", [⟨"id", "scalar", "String"⟩, ⟨"name", "scalar", "String"⟩]⟩,
    ⟨"Comment", [⟨"id", "scalar", "String"⟩, ⟨"content", "scalar", "String"⟩]⟩]⟩

/-- A deterministic stand-in for the prefixed-id builder in concrete runs. -/
def demoPid : String → Option String := fun m =>
  if m = "User" then some "usr_1"
  else if m = "Post" then some "pst_1"
  else if m = "Category" then some "cat_1"
  else none

set_option maxRecDepth 8000 in
/-- C10: the default identifier generator returns the prefix, an
underscore, and exactly 24 characters drawn from the 62-character
alphabet `0-9a-zA-Z`; hence length `|p| + 25` and the `^{p}_` shape. -/
theorem C10_defaultIdGenerator_shape (oracle : Nat → Nat) (pfx : String) :
    ∃ suffix : String,
      defaultIdGenerator oracle pfx = pfx ++ "_" ++ suffix
      ∧ suffix.length = 24
      ∧ (∀ c ∈ suffix.data,
          c ∈ "0123456789abcdefghijklmnopqrstuvwxyzABCDEFGHIJKLMNOPQRSTUVWXYZ".data)
      ∧ (defaultIdGenerator oracle pfx).length = pfx.length + 25
      ∧ "0123456789abcdefghijklmnopqrstuvwxyzABCDEFGHIJKLMNOPQRSTUVWXYZ".data.length
          = 62 := by
  have hs : (String.mk ((List.range 24).map
      (fun i => "0123456789abcdefghijklmnopqrstuvwxyzABCDEFGHIJKLMNOPQRSTUVWXYZ".data.getD
        (oracle i % "0123456789abcdefghijklmnopqrstuvwxyzABCDEFGHIJKLMNOPQRSTUVWXYZ".data.length)
        'a'))).length = 24 := by
    simp [String.length]
  refine ⟨String.mk ((List.range 24).map
    (fun i => "0123456789abcdefghijklmnopqrstuvwxyzABCDEFGHIJKLMNOPQRSTUVWXYZ".data.getD
      (oracle i % "0123456789abcdefghijklmnopqrstuvwxyzABCDEFGHIJKLMNOPQRSTUVWXYZ".data.length)
      'a')), rfl, hs, ?_, ?_, by decide⟩
  · intro c hc
    simp only [String.data, List.mem_map] at hc
    obtain ⟨i, _, hci⟩ := hc
    subst hci
    have hlt : (oracle i %
        "0123456789abcdefghijklmnopqrstuvwxyzABCDEFGHIJKLMNOPQRSTUVWXYZ".data.length)
        < "0123456789abcdefghijklmnopqrstuvwxyzABCDEFGHIJKLMNOPQRSTUVWXYZ".data.length := by
      apply Nat.mod_lt
      decide
    rw [List.getD_eq_getElem?_getD, List.getElem?_eq_getElem hlt]
    exact List.getElem_mem hlt
  · show (pfx ++ "_" ++ String.mk ((List.range 24).map
      (fun i => "0123456789abcdefghijklmnopqrstuvwxyzABCDEFGHIJKLMNOPQRSTUVWXYZ".data.getD
        (oracle i % "0123456789abcdefghijklmnopqrstuvwxyzABCDEFGHIJKLMNOPQRSTUVWXYZ".data.length)
        'a'))).length = pfx.length + 25
    rw [String.length_append, String.length_append, hs]
    rfl

theorem findRelationModel_demoDmmf_eval (m f : String) :
    findRelationModel demoDmmf m f
      = if m = "User" then
          (if f = "posts" then some "Post"
           else if f = "comments" then some "Comment" else none)
        else if m = "Post" then
          (if f = "categories" then some "Category" else none)
        else none := by
  unfold findRelationModel
  cases hfind : demoDmmf.models.find? (fun md => md.name == m) with
  | none =>
      have hall := List.find?_eq_none.mp hfind
      have h1 : m ≠ "User" := by
        intro h
        have := hall ⟨"User", [⟨"id", "scalar", "String"⟩,
          ⟨"name", "scalar", "String"⟩, ⟨"posts", "object", "Post"⟩,
          ⟨"comments", "object", "Comment"⟩]⟩ (by simp [demoDmmf])
        simp [h] at this
      have h2 : m ≠ "Post" := by
        intro h
        have := hall ⟨"Post", [⟨"id", "scalar", "String"⟩,
          ⟨"title", "scalar", "String"⟩, ⟨"categories", "object", "Category"⟩]⟩
          (by simp [demoDmmf])
        simp [h] at this
      simp [h1, h2]
  | some md =>
      have hp := List.find?_some hfind
      have hmd := List.mem_of_find?_eq_some hfind
      simp only [demoDmmf, List.mem_cons, List.not_mem_nil, or_false] at hmd
      rcases hmd with h | h | h | h <;> subst h <;> simp only [beq_iff_eq] at hp <;>
        subst hp
      · by_cases hf1 : f = "posts"
        · simp [hf1, List.find?]
        · by_cases hf2 : f = "comments"
          · simp [hf1, hf2, List.find?, Ne.symm hf1]
          · by_cases hf3 : f = "id"
            · simp [hf1, hf2, hf3, List.find?]
            · by_cases hf4 : f = "name"
              · simp [hf1, hf2, hf3, hf4, List.find?, Ne.symm hf3]
              · have e1 : ("id" == f) = false := beq_eq_false_iff_ne.mpr (Ne.symm hf3)
                have e2 : ("name" == f) = false := beq_eq_false_iff_ne.mpr (Ne.symm hf4)
                have e3 : ("posts" == f) = false := beq_eq_false_iff_ne.mpr (Ne.symm hf1)
                have e4 : ("comments" == f) = false :=
                  beq_eq_false_iff_ne.mpr (Ne.symm hf2)
                simp [List.find?, e1, e2, e3, e4, hf1, hf2]
      · by_cases hf1 : f = "categories"
        · simp [hf1, List.find?]
        · by_cases hf2 : f = "id"
          · simp [hf1, hf2, List.find?]
          · by_cases hf3 : f = "title"
            · simp [hf1, hf2, hf3, List.find?, Ne.symm hf2]
            · have e1 : ("id" == f) = false := beq_eq_false_iff_ne.mpr (Ne.symm hf2)
              have e2 : ("title" == f) = false := beq_eq_false_iff_ne.mpr (Ne.symm hf3)
              have e3 : ("categories" == f) = false :=
                beq_eq_false_iff_ne.mpr (Ne.symm hf1)
              simp [List.find?, e1, e2, e3, hf1]
      · by_cases hf1 : f = "id"
        · simp [hf1, List.find?]
        · by_cases hf2 : f = "name"
          · simp [hf1, hf2, List.find?, Ne.symm hf1]
          · have e1 : ("id" == f) = false := beq_eq_false_iff_ne.mpr (Ne.symm hf1)
            have e2 : ("name" == f) = false := beq_eq_false_iff_ne.mpr (Ne.symm hf2)
            simp [List.find?, e1, e2]
      · by_cases hf1 : f = "id"
        · simp [hf1, List.find?]
        · by_cases hf2 : f = "content"
          · simp [hf1, hf2, List.find?, Ne.symm hf1]
          · have e1 : ("id" == f) = false := beq_eq_false_iff_ne.mpr (Ne.symm hf1)
            have e2 : ("content" == f) = false := beq_eq_false_iff_ne.mpr (Ne.symm hf2)
            simp [List.find?, e1, e2]


/-- C2: at every nesting depth, a present truthy primitive `id` (any
non-empty string or nonzero number) is forwarded exactly; identifiers are
synthesized only for nodes whose `id` is absent, `null`, `""` or `0`. -/
theorem C2_truthy_ids_preserved (dmmf : Dmmf) (data : JValue) (model : String)
    (pid : String → Option String) (b : Bool) (p : List String) (v : JValue)
    (hv : jsTruthy v = true) (hprim : isObjLike v = false)
    (hin : getPath data (p ++ ["id"]) = some v) :
    getPath (processNestedData data model pid dmmf b) (p ++ ["id"]) = some v :=
  pnd_preserves_protected dmmf data model pid b p "id" v
    (Or.inl ⟨rfl, hv, hprim⟩) hin

/-- Concrete check of C2: a nested create whose caller-supplied `id` is the
non-empty string `keep_me` is forwarded exactly, even though prefixes are
configured for both models. -/
theorem C2_witness :
    getPath (processNestedData
        (.obj [("name", .str "u"),
          ("posts", .obj [("create", .obj [("id", .str "keep_me"),
            ("title", .str "t")])])])
        "User" demoPid demoDmmf true)
      (["posts", "create"] ++ ["id"]) = some (.str "keep_me") :=
  C2_truthy_ids_preserved demoDmmf _ "User" demoPid true ["posts", "create"]
    (.str "keep_me") (by decide) (by decide)
    (by simp [getPath, jLookupF])

/-- C7: sub-trees under `connect`, `disconnect` and `delete` are never
processed: at every nesting depth the whole sub-tree is forwarded
deep-equal to its input (given, as in any real schema, that no relation
field carries one of those names). -/
theorem C7_passthrough_untouched (dmmf : Dmmf) (data : JValue) (model : String)
    (pid : String → Option String) (b : Bool) (p : List String) (k : String)
    (v : JValue) (hk : k = "connect" ∨ k = "disconnect" ∨ k = "delete")
    (hschema : ∀ m, findRelationModel dmmf m k = none)
    (hin : getPath data (p ++ [k]) = some v) :
    getPath (processNestedData data model pid dmmf b) (p ++ [k]) = some v :=
  pnd_preserves_protected dmmf data model pid b p k v
    (Or.inr ⟨by rcases hk with h | h | h <;> subst h <;> simp [passThroughKeys],
      hschema⟩) hin



/-- Concrete check of C7: a `connect` sub-tree nested under a resolving
relation field comes out byte-identical. -/
theorem C7_witness :
    getPath (processNestedData
        (.obj [("name", .str "u"),
          ("posts", .obj [("connect", .obj [("id", .str "pst_9"),
            ("meta", .obj [("x", .num 1)])])])])
        "User" demoPid demoDmmf true)
      (["posts"] ++ ["connect"])
      = some (.obj [("id", .str "pst_9"), ("meta", .obj [("x", .num 1)])]) :=
  C7_passthrough_untouched demoDmmf _ "User" demoPid true ["posts"] "connect"
    (.obj [("id", .str "pst_9"), ("meta", .obj [("x", .num 1)])])
    (Or.inl rfl)
    (by
      intro m
      rw [findRelationModel_demoDmmf_eval]
      simp)
    (by simp [getPath, jLookupF])

theorem pndEntry_inert (dmmf : Dmmf) (kvs : List (String × JValue)) (model : String)
    (pid : String → Option String) (b : Bool) (k : String) (v : JValue)
    (h : isObjLike v = false
      ∨ (isRelationOperation k = false ∧ findRelationModel dmmf model k = none)) :
    pndEntry kvs model pid dmmf b k v = v := by
  rw [pndEntry_eq]
  rcases h with h | ⟨hop, hres⟩
  · rw [if_pos (by simp [h])]
  · by_cases hg : (!(jsTruthy v && isObjLike v)) = true
    · rw [if_pos hg]
    · rw [if_neg hg, if_neg (by simp [hop]), hres]

/-- C1 (amended): in Case A the non-operation sibling keys are tried in
insertion order and the *first one whose resolution succeeds* provides the
relation model; a sibling that fails to resolve is skipped rather than
ending the search.  Here the first sibling `f1` fails and the second `f2`
resolves, and the operation value is processed against `f2`'s model. -/
theorem C1_first_resolving_sibling_wins (dmmf : Dmmf) (model rm : String)
    (pid : String → Option String) (f1 f2 : String) (v1 v2 c : JValue)
    (h1 : isRelationOperation f1 = false) (h2 : isRelationOperation f2 = false)
    (hv1 : isObjLike v1 = false) (hv2 : isObjLike v2 = false)
    (hr1 : findRelationModel dmmf model f1 = none)
    (hr2 : findRelationModel dmmf model f2 = some rm)
    (hc : jsTruthy c = true) (hco : isObjLike c = true) :
    processNestedData (.obj [(f1, v1), (f2, v2), ("create", c)]) model pid dmmf false
      = .obj [(f1, v1), (f2, v2),
          ("create", processNestedData c rm pid dmmf true)] := by
  have hentry : pndEntry [(f1, v1), (f2, v2), ("create", c)] model pid dmmf false
      "create" c = processNestedData c rm pid dmmf true := by
    rw [pndEntry_eq]
    rw [if_neg (by simp [hc, hco])]
    rw [if_pos (by decide)]
    have hkeys : (((addRootIdFields [(f1, v1), (f2, v2), ("create", c)] model pid
        false).map Prod.fst).filter (fun f => !isRelationOperation f))
        = [f1, f2] := by
      rw [addRootIdFields_not_root]
      simp [List.filter, h1, h2]
      decide
    rw [hkeys]
    simp only [List.findSome?_cons, hr1, hr2]
    rw [if_neg (by simp)]
    rw [if_neg (by decide)]
    rw [if_neg (by decide)]
    rw [if_pos (by decide)]
  rw [pnd_obj, addRootIdFields_not_root]
  simp only [List.map_cons, List.map_nil]
  rw [hentry]
  rw [pndEntry_inert dmmf _ model pid false f1 v1 (Or.inl hv1)]
  rw [pndEntry_inert dmmf _ model pid false f2 v2 (Or.inl hv2)]

/-- C1 (counterexample): in this Case-A node the *first* non-operation
sibling key (`junk`) does not resolve, yet the `create` value is still
processed (against the later sibling `posts`): an identifier appears
inside it, where the claim says it must be left unprocessed. -/
theorem C1_counterexample :
    (([("junk", JValue.num 1), ("posts", JValue.num 2),
        ("create", JValue.obj [("title", JValue.str "t")])].map
        Prod.fst).filter (fun f => !isRelationOperation f)).head? = some "junk"
    ∧ findRelationModel demoDmmf "User" "junk" = none
    ∧ getPath (.obj [("junk", .num 1), ("posts", .num 2),
        ("create", .obj [("title", .str "t")])]) ["create", "id"] = none
    ∧ getPath (processNestedData
        (.obj [("junk", .num 1), ("posts", .num 2),
          ("create", .obj [("title", .str "t")])])
        "User" demoPid demoDmmf false) ["create", "id"] = some (.str "pst_1") := by
  refine ⟨by decide, by rw [findRelationModel_demoDmmf_eval]; decide,
    by simp [getPath, jLookupF], ?_⟩
  simp [pnd_obj, addRootIdFields, jsTruthyO, jLookupF, jsTruthy, demoPid,
    setKeyF, pndEntry, isRelationOperation, RELATION_OPERATIONS, isObjLike,
    findRelationModel, demoDmmf, jHasField, jGet, pndUpdateMatch1,
    pndUpdateMatch2, pndUpdateMatch3, pndUpdateMatch4, spreadFields, getPath,
    List.find?, List.findSome?, List.filter]

/-- Concrete check of the amended C1: `junk` fails to resolve, `posts`
resolves, and the `create` value is processed against `Post`. -/
theorem C1_witness :
    isRelationOperation "junk" = false
    ∧ findRelationModel demoDmmf "User" "junk" = none
    ∧ findRelationModel demoDmmf "User" "posts" = some "Post"
    ∧ processNestedData (.obj [("junk", .num 1), ("posts", .num 2),
        ("create", .obj [("title", .str "t")])]) "User" demoPid demoDmmf false
      = .obj [("junk", .num 1), ("posts", .num 2),
          ("create", .obj [("title", .str "t"), ("id", .str "pst_1")])] := by
  refine ⟨by decide, by rw [findRelationModel_demoDmmf_eval]; decide,
    by rw [findRelationModel_demoDmmf_eval]; decide, ?_⟩
  rw [C1_first_resolving_sibling_wins demoDmmf "User" "Post" demoPid "junk"
    "posts" (.num 1) (.num 2) (.obj [("title", .str "t")]) (by decide) (by decide)
    (by decide) (by decide) (by rw [findRelationModel_demoDmmf_eval]; decide)
    (by rw [findRelationModel_demoDmmf_eval]; decide) (by decide) (by decide)]
  simp [pnd_obj, addRootIdFields, jsTruthyO, jLookupF, jsTruthy, demoPid,
    setKeyF, pndEntry, isRelationOperation, RELATION_OPERATIONS, isObjLike,
    findRelationModel, demoDmmf, jHasField, jGet, pndUpdateMatch1,
    pndUpdateMatch2, pndUpdateMatch3, pndUpdateMatch4, spreadFields,
    List.find?, List.findSome?, List.filter]

theorem addRootIdFields_keys (kvs : List (String × JValue)) (model : String)
    (pid : String → Option String) (b : Bool) :
    (addRootIdFields kvs model pid b).map Prod.fst = kvs.map Prod.fst
    ∨ (addRootIdFields kvs model pid b).map Prod.fst
        = kvs.map Prod.fst ++ ["id"] := by
  unfold addRootIdFields
  split
  · match pid model with
    | some g =>
        by_cases hg : g = ""
        · simp [hg]
        · simp only [hg, if_false]
          rw [keys_setKeyF]
          by_cases hm : "id" ∈ kvs.map Prod.fst
          · simp [hm]
          · simp [hm]
    | none => simp
  · simp

/-- C9 (counterexample): a key whose value is the scalar `""` does *not*
keep its exact input value — the falsy `id` is overwritten. -/
theorem C9_counterexample :
    getPath (.obj [("id", .str ""), ("name", .str "x")]) ["id"] = some (.str "")
    ∧ isObjLike (.str "") = false
    ∧ getPath (processNestedData (.obj [("id", .str ""), ("name", .str "x")])
        "User" demoPid demoDmmf true) ["id"] = some (.str "usr_1")
    ∧ JValue.str "" ≠ JValue.str "usr_1" := by
  refine ⟨by simp [getPath, jLookupF], by decide, ?_, by simp⟩
  simp [pnd_obj, addRootIdFields, jsTruthyO, jLookupF, jsTruthy, demoPid,
    setKeyF, pndEntry, isRelationOperation, RELATION_OPERATIONS, isObjLike,
    findRelationModel, demoDmmf, jHasField, jGet, spreadFields, getPath,
    List.find?, List.findSome?, List.filter]

/-- C9 (amended): the rewriter never removes or renames a key and the only
key it can add is `id`; every key *other than `id`* whose value is a
scalar, `null`, or a non-resolving non-operation object keeps its exact
input value (`id` itself may be overwritten when falsy). -/
theorem C9_keys_and_inert_values (dmmf : Dmmf) (kvs : List (String × JValue))
    (model : String) (pid : String → Option String) (b : Bool) :
    ∃ out, processNestedData (.obj kvs) model pid dmmf b = .obj out
      ∧ (∀ k, k ∈ kvs.map Prod.fst → k ∈ out.map Prod.fst)
      ∧ (∀ k, k ∈ out.map Prod.fst → k ∈ kvs.map Prod.fst ∨ k = "id")
      ∧ (∀ k v, k ≠ "id" → jLookupF kvs k = some v →
          (isObjLike v = false
            ∨ (isRelationOperation k = false
                ∧ findRelationModel dmmf model k = none)) →
          jLookupF out k = some v) := by
  refine ⟨(addRootIdFields kvs model pid b).map
    (fun kv => (kv.1, pndEntry kvs model pid dmmf b kv.1 kv.2)),
    pnd_obj kvs model pid dmmf b, ?_, ?_, ?_⟩
  · intro k hk
    have hkeys : ((addRootIdFields kvs model pid b).map
        (fun kv => (kv.1, pndEntry kvs model pid dmmf b kv.1 kv.2))).map Prod.fst
        = (addRootIdFields kvs model pid b).map Prod.fst := by
      rw [List.map_map]
      rfl
    rw [hkeys]
    rcases addRootIdFields_keys kvs model pid b with h | h <;> rw [h]
    · exact hk
    · simp [hk]
  · intro k hk
    have hkeys : ((addRootIdFields kvs model pid b).map
        (fun kv => (kv.1, pndEntry kvs model pid dmmf b kv.1 kv.2))).map Prod.fst
        = (addRootIdFields kvs model pid b).map Prod.fst := by
      rw [List.map_map]
      rfl
    rw [hkeys] at hk
    rcases addRootIdFields_keys kvs model pid b with h | h <;> rw [h] at hk
    · exact Or.inl hk
    · rcases List.mem_append.mp hk with h2 | h2
      · exact Or.inl h2
      · exact Or.inr (List.mem_singleton.mp h2)
  · intro k v hk hl hinert
    rw [jLookupF_map_pair (addRootIdFields kvs model pid b) k
      (pndEntry kvs model pid dmmf b)]
    rw [addRootIdFields_lookup_ne kvs model pid b k hk, hl]
    simp only [Option.map_some']
    rw [pndEntry_inert dmmf kvs model pid b k v hinert]

/-- Concrete check of the amended C9: keys survive, only `id` is added, and
a non-resolving object value is untouched. -/
theorem C9_witness :
    ∃ out, processNestedData
        (.obj [("name", JValue.str "x"), ("foo", JValue.obj [("bar", JValue.num 1)])])
        "User" demoPid demoDmmf true = .obj out
      ∧ "name" ∈ out.map Prod.fst
      ∧ jLookupF out "foo" = some (.obj [("bar", .num 1)]) := by
  obtain ⟨out, h1, h2, h3, h4⟩ := C9_keys_and_inert_values demoDmmf
    [("name", .str "x"), ("foo", .obj [("bar", .num 1)])] "User" demoPid true
  refine ⟨out, h1, h2 "name" (by decide), ?_⟩
  exact h4 "foo" (.obj [("bar", .num 1)]) (by decide) rfl
    (Or.inr ⟨by decide, by rw [findRelationModel_demoDmmf_eval]; decide⟩)

/-- The value a resolving relation field (Case 2) is rewritten to, as the
four-step operation chain over the field's object value. -/
theorem pnd_caseB_value (dmmf : Dmmf) (kvs : List (String × JValue))
    (model : String) (pid : String → Option String) (b : Bool) (f : String)
    (ffs : List (String × JValue)) (rm : String)
    (hf_op : isRelationOperation f = false) (hf_id : f ≠ "id")
    (hl : jLookupF kvs f = some (.obj ffs))
    (hrm : findRelationModel dmmf model f = some rm) :
    jGet (processNestedData (.obj kvs) model pid dmmf b) f
      = some (.obj (pndUpdateMatch4 (.obj ffs) rm pid dmmf
          (pndUpdateMatch3 (.obj ffs) rm pid dmmf
            (pndUpdateMatch2 (.obj ffs) rm pid dmmf
              (pndUpdateMatch1 (.obj ffs) rm pid dmmf ffs))))) := by
  rw [pnd_obj]
  simp only [jGet]
  rw [jLookupF_map_pair (addRootIdFields kvs model pid b) f
    (pndEntry kvs model pid dmmf b)]
  rw [addRootIdFields_lookup_ne kvs model pid b f hf_id, hl]
  simp only [Option.map_some']
  congr 1
  rw [pndEntry_eq]
  rw [if_neg (by simp [jsTruthy, isObjLike])]
  rw [if_neg (by simp [hf_op])]
  rw [hrm]
  rfl

theorem ccItem_where_untouched (it : JValue) (ifs : List (String × JValue))
    (rm : String) (pid : String → Option String) (dmmf : Dmmf)
    (hobj : it = .obj ifs) :
    jGet (ccItem it rm pid dmmf) "where" = jGet it "where" := by
  subst hobj
  rw [ccItem]
  cases hc : jGet (.obj ifs) "create" with
  | none => simp [jGet, spreadFields]
  | some c =>
      simp only [jGet]
      rw [jLookupF_setKeyF_ne _ "create" "where" _ (by decide)]
      rfl

theorem ccItem_create_processed (it c : JValue) (rm : String)
    (pid : String → Option String) (dmmf : Dmmf)
    (hc : jGet it "create" = some c) (ht : jsTruthy c = true) :
    jGet (ccItem it rm pid dmmf) "create"
      = some (processNestedData c rm pid dmmf true) := by
  obtain ⟨ifs, hobj, hlf⟩ := jGet_some_obj it "create" c hc
  subst hobj
  rw [ccItem]
  rw [show jGet (JValue.obj ifs) "create" = some c from hc]
  simp only [ht, if_true, jGet]
  rw [jLookupF_setKeyF_self]

/-- C4 (amended): in Case B a `connectOrCreate` whose value is an *array*
is mapped item-wise — each item's truthy `create` is recursed into with
`addRootId = true` (so an object `create` lacking an id receives one when
a prefix is configured) and each `where` is untouched; but a *single
non-array* `connectOrCreate` object is passed through unchanged — the
source's explicit fallback — so no identifier is synthesized under it. -/
theorem C4_connectOrCreate_caseB (dmmf : Dmmf) (kvs : List (String × JValue))
    (model : String) (pid : String → Option String) (b : Bool) (f : String)
    (ffs : List (String × JValue)) (rm : String)
    (hf_op : isRelationOperation f = false) (hf_id : f ≠ "id")
    (hl : jLookupF kvs f = some (.obj ffs))
    (hrm : findRelationModel dmmf model f = some rm) :
    (∀ cc, jLookupF ffs "connectOrCreate" = some cc → (∀ items, cc ≠ .arr items) →
      getPath (processNestedData (.obj kvs) model pid dmmf b)
        [f, "connectOrCreate"] = some cc)
    ∧ (∀ items, jLookupF ffs "connectOrCreate" = some (.arr items) →
        getPath (processNestedData (.obj kvs) model pid dmmf b)
          [f, "connectOrCreate"]
          = some (.arr (items.map (fun it => ccItem it rm pid dmmf)))
        ∧ (∀ it ∈ items, ∀ ifs, it = JValue.obj ifs →
            jGet (ccItem it rm pid dmmf) "where" = jGet it "where")
        ∧ (∀ it ∈ items, ∀ c, jGet it "create" = some c → jsTruthy c = true →
            jGet (ccItem it rm pid dmmf) "create"
              = some (processNestedData c rm pid dmmf true))
        ∧ (∀ it ∈ items, ∀ cfs g, jGet it "create" = some (.obj cfs) →
            jsTruthyO (jLookupF cfs "id") = false → pid rm = some g → g ≠ "" →
            jGet (jGetD (ccItem it rm pid dmmf) "create") "id"
              = some (.str g))) := by
  have hbase := pnd_caseB_value dmmf kvs model pid b f ffs rm hf_op hf_id hl hrm
  have hout : ∀ y, jGet (processNestedData (.obj kvs) model pid dmmf b) f = some y →
      getPath (processNestedData (.obj kvs) model pid dmmf b)
        [f, "connectOrCreate"] = jGet y "connectOrCreate" := by
    intro y hy
    cases hpnd : processNestedData (.obj kvs) model pid dmmf b with
    | obj outfs =>
        rw [hpnd] at hy
        simp only [jGet] at hy
        rw [getPath_obj_cons_some outfs f _ y hy]
        cases y with
        | obj yfs =>
            simp only [jGet, getPath]
            cases jLookupF yfs "connectOrCreate" <;> rfl
        | null => rfl
        | bool yb => rfl
        | num yn => rfl
        | str ys => rfl
        | arr ys =>
            simp only [jGet, getPath]
            rw [if_neg (by decide)]
    | null => rw [hpnd] at hy; simp [jGet] at hy
    | bool xb => rw [hpnd] at hy; simp [jGet] at hy
    | num xn => rw [hpnd] at hy; simp [jGet] at hy
    | str xs => rw [hpnd] at hy; simp [jGet] at hy
    | arr xs => rw [hpnd] at hy; simp [jGet] at hy
  constructor
  · intro cc hcc hnotarr
    rw [hout _ hbase]
    simp only [jGet]
    rw [pndUpdateMatch4_lookup_ne _ _ _ _ _ _ (by decide)]
    rw [pndUpdateMatch3_lookup_cc]
    rw [show jGet (JValue.obj ffs) "connectOrCreate" = some cc from hcc]
    match cc, hnotarr with
    | .null, _ => rfl
    | .bool xb, _ => rfl
    | .num xn, _ => rfl
    | .str xs, _ => rfl
    | .obj xfs, _ => rfl
    | .arr xs, hna => exact absurd rfl (hna xs)
  · intro items hcc
    refine ⟨?_, ?_, ?_, ?_⟩
    · rw [hout _ hbase]
      simp only [jGet]
      rw [pndUpdateMatch4_lookup_ne _ _ _ _ _ _ (by decide)]
      rw [pndUpdateMatch3_lookup_cc]
      rw [show jGet (JValue.obj ffs) "connectOrCreate" = some (.arr items)
        from hcc]
    · intro it _ ifs hobj
      exact ccItem_where_untouched it ifs rm pid dmmf hobj
    · intro it _ c hc ht
      exact ccItem_create_processed it c rm pid dmmf hc ht
    · intro it _ cfs g hc hfalsy hpid hg
      have h1 := ccItem_create_processed it (.obj cfs) rm pid dmmf hc rfl
      rw [jGetD, h1]
      simp only [Option.getD_some]
      exact pnd_root_id_assigned dmmf cfs rm pid g hfalsy hpid hg

/-- C4 counterexample: a *single non-array* `connectOrCreate` object under
a resolving relation field is passed through completely unchanged by the
rewriter (the source's explicit non-array fallback), so its `create` block
receives no synthesized id even though the related entity `Post` has the
configured prefix `pst`.  This refutes the claim's "including under a
single non-array connectOrCreate object". -/
theorem C4_counterexample :
    demoPid "Post" = some "pst_1"
    ∧ findRelationModel demoDmmf "User" "posts" = some "Post"
    ∧ processNestedData
        (.obj [("posts", .obj [("connectOrCreate", .obj
          [("where", .obj [("title", .str "t")]),
           ("create", .obj [("title", .str "Hello")])])])])
        "User" demoPid demoDmmf false
      = .obj [("posts", .obj [("connectOrCreate", .obj
          [("where", .obj [("title", .str "t")]),
           ("create", .obj [("title", .str "Hello")])])])]
    ∧ getPath
        (.obj [("posts", .obj [("connectOrCreate", .obj
          [("where", .obj [("title", .str "t")]),
           ("create", .obj [("title", .str "Hello")])])])])
        ["posts", "connectOrCreate", "create", "id"] = none := by
  refine ⟨rfl, by decide, ?_, rfl⟩
  simp [pnd_obj, addRootIdFields, jsTruthyO, jLookupF, jsTruthy, demoPid,
    setKeyF, pndEntry, isRelationOperation, RELATION_OPERATIONS, isObjLike,
    findRelationModel, demoDmmf, jHasField, jGet, pndUpdateMatch1,
    pndUpdateMatch2, pndUpdateMatch3, pndUpdateMatch4, spreadFields, getPath,
    List.find?, List.findSome?, List.filter]

theorem C4_witness :
    getPath (processNestedData
        (.obj [("posts", .obj [("connectOrCreate", .arr
          [.obj [("where", .obj [("title", .str "t")]),
                 ("create", .obj [("title", .str "Hello")])]])])])
        "User" demoPid demoDmmf false)
      ["posts", "connectOrCreate"]
    = some (.arr [ccItem
        (.obj [("where", .obj [("title", .str "t")]),
               ("create", .obj [("title", .str "Hello")])])
        "Post" demoPid demoDmmf]) :=
  ((C4_connectOrCreate_caseB demoDmmf
      [("posts", .obj [("connectOrCreate", .arr
        [.obj [("where", .obj [("title", .str "t")]),
               ("create", .obj [("title", .str "Hello")])]])])]
      "User" demoPid false "posts"
      [("connectOrCreate", .arr
        [.obj [("where", .obj [("title", .str "t")]),
               ("create", .obj [("title", .str "Hello")])]])]
      "Post" (by decide) (by decide) rfl (by decide)).2
    [.obj [("where", .obj [("title", .str "t")]),
           ("create", .obj [("title", .str "Hello")])]] rfl).1

theorem getPath_cons_of_jGet (v : JValue) (f : String) (p : List String)
    (y : JValue) (hy : jGet v f = some y) :
    getPath v (f :: p) = getPath y p := by
  obtain ⟨fs, hv, hl⟩ := jGet_some_obj v f y hy
  subst hv
  exact getPath_obj_cons_some fs f p y hl

/-- C5 (amended): a nested `createMany` value reachable through Case B is
*not* left untouched when its `data` is malformed.  With a `data` field
present (of any shape, array or not) the value is rebuilt as
`{ ...value, data: processNestedData(data, …, true) }`, so a non-array
object `data` with a falsy `id` *receives a synthesized identifier*; with
`data` absent the whole value falls into the generic create branch and is
itself recursed into with `addRootId = true`.  No exception is modelled
anywhere: processing is total and the rest of the payload proceeds. -/
theorem C5_createMany_recursed (dmmf : Dmmf) (kvs : List (String × JValue))
    (model : String) (pid : String → Option String) (b : Bool) (f : String)
    (ffs : List (String × JValue)) (rm : String) (cm : JValue)
    (hf_op : isRelationOperation f = false) (hf_id : f ≠ "id")
    (hl : jLookupF kvs f = some (.obj ffs))
    (hrm : findRelationModel dmmf model f = some rm)
    (hcm : jLookupF ffs "createMany" = some cm) :
    getPath (processNestedData (.obj kvs) model pid dmmf b) [f, "createMany"]
      = some (pndCreateManyVal cm rm pid dmmf)
    ∧ (jGet cm "data" = none →
        pndCreateManyVal cm rm pid dmmf
          = processNestedData cm rm pid dmmf true)
    ∧ (∀ d, jGet cm "data" = some d →
        pndCreateManyVal cm rm pid dmmf
          = .obj (setKeyF (spreadFields cm) "data"
              (processNestedData d rm pid dmmf true)))
    ∧ (∀ dfs g, jGet cm "data" = some (.obj dfs) →
        jsTruthyO (jLookupF dfs "id") = false → pid rm = some g → g ≠ "" →
        getPath (processNestedData (.obj kvs) model pid dmmf b)
          [f, "createMany", "data", "id"] = some (.str g)) := by
  have hbase := pnd_caseB_value dmmf kvs model pid b f ffs rm hf_op hf_id hl hrm
  have hCH : jLookupF
      (pndUpdateMatch4 (.obj ffs) rm pid dmmf
        (pndUpdateMatch3 (.obj ffs) rm pid dmmf
          (pndUpdateMatch2 (.obj ffs) rm pid dmmf
            (pndUpdateMatch1 (.obj ffs) rm pid dmmf ffs)))) "createMany"
      = some (pndCreateManyVal cm rm pid dmmf) := by
    rw [pndUpdateMatch4_lookup_ne _ _ _ _ _ _ (by decide)]
    rw [pndUpdateMatch3_lookup_ne _ _ _ _ _ _ (by decide)]
    rw [pndUpdateMatch2_lookup_createMany]
    rw [show jGet (JValue.obj ffs) "createMany" = some cm from hcm]
  have hdnone : jGet cm "data" = none →
      pndCreateManyVal cm rm pid dmmf = processNestedData cm rm pid dmmf true := by
    intro h
    simp [pndCreateManyVal, jHasField, h]
  have hdsome : ∀ d, jGet cm "data" = some d →
      pndCreateManyVal cm rm pid dmmf
        = .obj (setKeyF (spreadFields cm) "data"
            (processNestedData d rm pid dmmf true)) := by
    intro d h
    simp only [pndCreateManyVal, jHasField, h, Option.isSome_some, if_true]
    split
    · rename_i d' hd'
      rw [h] at hd'
      injection hd' with hdd
      rw [hdd]
    · rename_i hd'
      rw [h] at hd'
      exact absurd hd' (by simp)
  have hp1 : getPath (processNestedData (.obj kvs) model pid dmmf b)
      [f, "createMany"] = some (pndCreateManyVal cm rm pid dmmf) := by
    rw [getPath_cons_of_jGet _ f _ _ hbase]
    rw [getPath_obj_cons_some _ _ _ _ hCH]
    exact getPath_nil _
  refine ⟨hp1, hdnone, hdsome, ?_⟩
  intro dfs g hd hfalsy hpid hg
  rw [getPath_cons_of_jGet _ f _ _ hbase]
  rw [getPath_obj_cons_some _ _ _ _ hCH]
  rw [hdsome (.obj dfs) hd]
  rw [getPath_obj_cons_some _ _ _ _ (jLookupF_setKeyF_self _ _ _)]
  rw [getPath_cons_of_jGet _ "id" _ _
    (pnd_root_id_assigned dmmf dfs rm pid g hfalsy hpid hg)]
  exact getPath_nil _

/-- C5 counterexample: a nested `createMany` whose `data` is a plain
(non-array) object is *not* left untouched — the rewriter recurses into it
and synthesizes `pst_1` as its `id`, although the input carried no id at
that path. -/
theorem C5_counterexample :
    getPath
      (.obj [("posts", .obj [("createMany", .obj
        [("data", .obj [("title", .str "Hello")])])])])
      ["posts", "createMany", "data", "id"] = none
    ∧ getPath
        (processNestedData
          (.obj [("posts", .obj [("createMany", .obj
            [("data", .obj [("title", .str "Hello")])])])])
          "User" demoPid demoDmmf false)
        ["posts", "createMany", "data", "id"] = some (.str "pst_1") := by
  refine ⟨rfl, ?_⟩
  simp [pnd_obj, addRootIdFields, jsTruthyO, jLookupF, jsTruthy, demoPid,
    setKeyF, pndEntry, isRelationOperation, RELATION_OPERATIONS, isObjLike,
    findRelationModel, demoDmmf, jHasField, jGet, pndUpdateMatch1,
    pndUpdateMatch2, pndUpdateMatch3, pndUpdateMatch4, spreadFields, getPath,
    List.find?, List.findSome?, List.filter]

theorem C5_witness :
    getPath
      (processNestedData
        (.obj [("posts", .obj [("createMany", .obj
          [("data", .obj [("title", .str "Bye")])])])])
        "User" demoPid demoDmmf true)
      ["posts", "createMany", "data", "id"] = some (.str "pst_1") :=
  (C5_createMany_recursed demoDmmf
    [("posts", .obj [("createMany", .obj
      [("data", .obj [("title", .str "Bye")])])])]
    "User" demoPid true "posts"
    [("createMany", .obj [("data", .obj [("title", .str "Bye")])])]
    "Post" (.obj [("data", .obj [("title", .str "Bye")])])
    (by decide) (by decide) rfl (by decide) rfl).2.2.2
    [("title", .str "Bye")] "pst_1" rfl rfl rfl (by decide)

theorem jGet_jSet_ne (v : JValue) (k k' : String) (w : JValue) (h : k' ≠ k) :
    jGet (jSet v k w) k' = jGet v k' := by
  cases v <;> simp [jSet, jGet]
  exact jLookupF_setKeyF_ne _ _ _ _ h

theorem jGet_jSet_self_obj (fs : List (String × JValue)) (k : String)
    (w : JValue) : jGet (jSet (.obj fs) k w) k = some w := by
  simp [jSet, jGet, jLookupF_setKeyF_self]

theorem assignRootId_obj_ne (afs : List (String × JValue)) (key : String)
    (pid : String → Option String) (model : String) (k' : String)
    (h : k' ≠ key) :
    ∃ a1fs, assignRootId (.obj afs) key pid model = .obj a1fs
      ∧ jLookupF a1fs k' = jLookupF afs k' := by
  unfold assignRootId
  split
  · split
    · split
      · exact ⟨afs, rfl, rfl⟩
      · exact ⟨setKeyF afs key _, rfl, jLookupF_setKeyF_ne _ _ _ _ h⟩
    · exact ⟨afs, rfl, rfl⟩
  · exact ⟨afs, rfl, rfl⟩

theorem pndUpsertItem_update_val (item u : JValue) (rm : String)
    (pid : String → Option String) (dmmf : Dmmf)
    (hu : jGet item "update" = some u) (ht : jsTruthy u = true) :
    jGet (pndUpsertItem item rm pid dmmf) "update"
      = some (processNestedData u rm pid dmmf false) := by
  obtain ⟨ifs, hobj, hlf⟩ := jGet_some_obj item "update" u hu
  subst hobj
  rw [pndUpsertItem]
  simp only [jGet]
  split
  · rename_i u' hu'
    rw [hlf] at hu'
    injection hu' with huu
    subst huu
    rw [jLookupF_setKeyF_self]
    rw [if_pos ht]
  · rename_i hu'
    rw [hlf] at hu'
    exact absurd hu' (by simp)

theorem pnd_caseB_create_id (dmmf : Dmmf) (kvs : List (String × JValue))
    (model : String) (pid : String → Option String) (b : Bool) (f : String)
    (ffs : List (String × JValue)) (rm : String)
    (cfs : List (String × JValue)) (g : String)
    (hf_op : isRelationOperation f = false) (hf_id : f ≠ "id")
    (hl : jLookupF kvs f = some (.obj ffs))
    (hrm : findRelationModel dmmf model f = some rm)
    (hcr : jLookupF ffs "create" = some (.obj cfs))
    (hfalsy : jsTruthyO (jLookupF cfs "id") = false)
    (hpid : pid rm = some g) (hg : g ≠ "") :
    getPath (processNestedData (.obj kvs) model pid dmmf b)
      [f, "create", "id"] = some (.str g) := by
  have hbase := pnd_caseB_value dmmf kvs model pid b f ffs rm hf_op hf_id hl hrm
  have hCH : jLookupF
      (pndUpdateMatch4 (.obj ffs) rm pid dmmf
        (pndUpdateMatch3 (.obj ffs) rm pid dmmf
          (pndUpdateMatch2 (.obj ffs) rm pid dmmf
            (pndUpdateMatch1 (.obj ffs) rm pid dmmf ffs)))) "create"
      = some (processNestedData (.obj cfs) rm pid dmmf true) := by
    rw [pndUpdateMatch4_lookup_ne _ _ _ _ _ _ (by decide)]
    rw [pndUpdateMatch3_lookup_ne _ _ _ _ _ _ (by decide)]
    rw [pndUpdateMatch2_lookup_ne _ _ _ _ _ _ (by decide)]
    rw [pndUpdateMatch1_lookup_create]
    rw [show jGet (JValue.obj ffs) "create" = some (.obj cfs) from hcr]
  rw [getPath_cons_of_jGet _ f _ _ hbase]
  rw [getPath_obj_cons_some _ _ _ _ hCH]
  rw [getPath_cons_of_jGet _ "id" _ _
    (pnd_root_id_assigned dmmf cfs rm pid g hfalsy hpid hg)]
  exact getPath_nil _

theorem jsTruthyO_of_get (v : JValue) (k : String) (u : JValue)
    (h : jGet v k = some u) (ht : jsTruthy u = true) :
    jsTruthyO (jGet v k) = true := by
  rw [h]; simpa [jsTruthyO] using ht

theorem jset_key_pnd_get (v u : JValue) (k : String) (model : String)
    (pid : String → Option String) (dmmf : Dmmf) (b : Bool)
    (hv : jGet v k = some u) :
    jGet (jSet v k (processNestedData (jGetD v k) model pid dmmf b)) k
      = some (processNestedData u model pid dmmf b) := by
  obtain ⟨fs, hobj, hlf⟩ := jGet_some_obj v k u hv
  subst hobj
  rw [jGet_jSet_self_obj]
  simp only [jGetD, hv, Option.getD_some]

theorem handler_update_data_val (operation : String) (prefixes : Prefixes)
    (gen : String → String) (dmmf : Dmmf) (model : String)
    (afs : List (String × JValue)) (d : JValue)
    (hop : operation = "update" ∨ operation = "updateMany")
    (hd : jLookupF afs "data" = some d) (ht : jsTruthy d = true) :
    jGet (createOperationHandler operation prefixes gen dmmf model (.obj afs))
      "data"
      = some (processNestedData d model (prefixedId prefixes gen) dmmf false) := by
  have hd' : jGet (JValue.obj afs) "data" = some d := hd
  have htd := jsTruthyO_of_get _ _ _ hd' ht
  rcases hop with h | h <;> subst h <;>
    simp only [createOperationHandler, htd, reduceIte, if_true] <;>
    exact jset_key_pnd_get _ d "data" model (prefixedId prefixes gen) dmmf
      false hd'

theorem handler_upsert_update_val (prefixes : Prefixes) (gen : String → String)
    (dmmf : Dmmf) (model : String) (afs : List (String × JValue)) (u : JValue)
    (hu : jLookupF afs "update" = some u) (ht : jsTruthy u = true) :
    jGet (createOperationHandler "upsert" prefixes gen dmmf model (.obj afs))
      "update"
      = some (processNestedData u model (prefixedId prefixes gen) dmmf false) := by
  have hu' : jGet (JValue.obj afs) "update" = some u := hu
  simp only [createOperationHandler, String.reduceEq, reduceIte]
  by_cases hc : jsTruthyO (jGet (JValue.obj afs) "create") = true
  · rw [if_pos hc]
    obtain ⟨a1fs, he, hlk⟩ := assignRootId_obj_ne afs "create"
        (prefixedId prefixes gen) model "update" (by decide)
    rw [he]
    have hu1 : jGet (JValue.obj a1fs) "update" = some u := by
      show jLookupF a1fs "update" = some u
      rw [hlk]; exact hu
    by_cases hc1 : jsTruthyO (jGet (JValue.obj a1fs) "create") = true
    · rw [if_pos hc1]
      have hu2 : jGet (jSet (JValue.obj a1fs) "create"
            (processNestedData (jGetD (JValue.obj a1fs) "create") model
              (prefixedId prefixes gen) dmmf true)) "update" = some u := by
        rw [jGet_jSet_ne _ _ _ _ (show ("update" : String) ≠ "create" by decide)]
        exact hu1
      rw [if_pos (jsTruthyO_of_get _ _ _ hu2 ht)]
      exact jset_key_pnd_get _ u "update" model (prefixedId prefixes gen) dmmf
        false hu2
    · rw [if_neg hc1]
      rw [if_pos (jsTruthyO_of_get _ _ _ hu1 ht)]
      exact jset_key_pnd_get _ u "update" model (prefixedId prefixes gen) dmmf
        false hu1
  · rw [if_neg hc]
    rw [if_neg hc]
    rw [if_pos (jsTruthyO_of_get _ _ _ hu' ht)]
    exact jset_key_pnd_get _ u "update" model (prefixedId prefixes gen) dmmf
      false hu'

/-- C3: in `update`/`updateMany` and in the update branch of `upsert` —
top-level and nested — the root record's own `id` is never synthesized
(its value at the key `id` is exactly the input's), while nested `create`
descendants inside those bodies do receive synthesized ids: a relation
field's `create` object with a falsy `id` gains the generated identifier,
whatever the root flag (in particular under the `addRootId = false` of
update processing). -/
theorem C3_update_root_id_excluded (prefixes : Prefixes)
    (gen : String → String) (dmmf : Dmmf) (model : String)
    (hid : ∀ m, findRelationModel dmmf m "id" = none) :
    (∀ operation, (operation = "update" ∨ operation = "updateMany") →
      ∀ afs d, jLookupF afs "data" = some d → jsTruthy d = true →
      jGet (jGetD (createOperationHandler operation prefixes gen dmmf model
          (.obj afs)) "data") "id" = jGet d "id")
    ∧ (∀ afs u, jLookupF afs "update" = some u → jsTruthy u = true →
      jGet (jGetD (createOperationHandler "upsert" prefixes gen dmmf model
          (.obj afs)) "update") "id" = jGet u "id")
    ∧ (∀ rm item u, jGet item "update" = some u → jsTruthy u = true →
      jGet (jGetD (pndUpsertItem item rm (prefixedId prefixes gen) dmmf)
          "update") "id" = jGet u "id")
    ∧ (∀ kvs f ffs rm cfs g b, isRelationOperation f = false → f ≠ "id" →
      jLookupF kvs f = some (.obj ffs) →
      findRelationModel dmmf model f = some rm →
      jLookupF ffs "create" = some (.obj cfs) →
      jsTruthyO (jLookupF cfs "id") = false →
      prefixedId prefixes gen rm = some g → g ≠ "" →
      getPath (processNestedData (.obj kvs) model (prefixedId prefixes gen)
          dmmf b) [f, "create", "id"] = some (.str g)) := by
  refine ⟨?_, ?_, ?_, ?_⟩
  · intro operation hop afs d hd ht
    rw [jGetD,
      handler_update_data_val operation prefixes gen dmmf model afs d hop hd ht]
    simp only [Option.getD_some]
    exact pnd_root_id_not_added dmmf d model (prefixedId prefixes gen) hid
  · intro afs u hu ht
    rw [jGetD, handler_upsert_update_val prefixes gen dmmf model afs u hu ht]
    simp only [Option.getD_some]
    exact pnd_root_id_not_added dmmf u model (prefixedId prefixes gen) hid
  · intro rm item u hu ht
    rw [jGetD,
      pndUpsertItem_update_val item u rm (prefixedId prefixes gen) dmmf hu ht]
    simp only [Option.getD_some]
    exact pnd_root_id_not_added dmmf u rm (prefixedId prefixes gen) hid
  · intro kvs f ffs rm cfs g b hf_op hf_id hl hrm hcr hfalsy hpid hg
    exact pnd_caseB_create_id dmmf kvs model (prefixedId prefixes gen) b f ffs
      rm cfs g hf_op hf_id hl hrm hcr hfalsy hpid hg

theorem C3_witness :
    jGet (jGetD (createOperationHandler "update"
        (.map [("User", "usr"), ("Post", "pst"), ("Category", "cat")])
        (fun p => p ++ "_1") demoDmmf "User"
        (.obj [("data", .obj [("name", .str "N")])])) "data") "id"
      = none
    ∧ getPath (processNestedData
        (.obj [("posts", .obj [("create", .obj [("title", .str "T")])])])
        "User"
        (prefixedId (.map [("User", "usr"), ("Post", "pst"), ("Category", "cat")])
          (fun p => p ++ "_1"))
        demoDmmf false) ["posts", "create", "id"] = some (.str "pst_1") := by
  have hid : ∀ m, findRelationModel demoDmmf m "id" = none := by
    intro m
    rw [findRelationModel_demoDmmf_eval]
    split_ifs <;> first | rfl | simp_all
  have h := C3_update_root_id_excluded
    (.map [("User", "usr"), ("Post", "pst"), ("Category", "cat")])
    (fun p => p ++ "_1") demoDmmf "User" hid
  constructor
  · have h1 := h.1 "update" (Or.inl rfl)
      [("data", .obj [("name", .str "N")])] (.obj [("name", .str "N")]) rfl rfl
    rw [h1]
    rfl
  · exact h.2.2.2 [("posts", .obj [("create", .obj [("title", .str "T")])])]
      "posts" [("create", .obj [("title", .str "T")])] "Post"
      [("title", .str "T")] "pst_1" false (by decide) (by decide) rfl
      (by decide) rfl rfl rfl (by decide)

theorem pnd_root_id_truthy (dmmf : Dmmf) (kvs : List (String × JValue))
    (model : String) (pid : String → Option String) (b : Bool)
    (hid : ∀ m, findRelationModel dmmf m "id" = none)
    (ht : jsTruthyO (jLookupF kvs "id") = true) :
    jGet (processNestedData (.obj kvs) model pid dmmf b) "id"
      = jLookupF kvs "id" := by
  rw [pnd_obj, addRootIdFields_id_truthy kvs model pid b ht]
  simp only [jGet]
  rw [jLookupF_map_pair kvs "id" (pndEntry kvs model pid dmmf b)]
  cases hl : jLookupF kvs "id" with
  | none => rfl
  | some w =>
      simp only [Option.map_some']
      congr 1
      rw [pndEntry_eq]
      by_cases hg : (!(jsTruthy w && isObjLike w)) = true
      · rw [if_pos hg]
      · rw [if_neg hg]
        rw [if_neg (by simp [isRelationOperation, RELATION_OPERATIONS])]
        rw [hid model]

theorem assignRootId_creates_truthy_id (afs : List (String × JValue))
    (key : String) (pid : String → Option String) (model : String)
    (cfs : List (String × JValue)) (g : String)
    (hl : jLookupF afs key = some (.obj cfs))
    (hpid : pid model = some g) (hg : g ≠ "") :
    ∃ cfs', jGet (assignRootId (.obj afs) key pid model) key = some (.obj cfs')
      ∧ jsTruthyO (jLookupF cfs' "id") = true := by
  have hD : jGetD (JValue.obj afs) key = JValue.obj cfs := by
    simp [jGetD, jGet, hl]
  unfold assignRootId
  by_cases hidt : jsTruthyO (jGet (jGetD (JValue.obj afs) key) "id") = true
  · rw [if_neg (by simp [hidt])]
    refine ⟨cfs, hl, ?_⟩
    rw [hD] at hidt
    exact hidt
  · rw [if_pos (by simp [Bool.not_eq_true] at hidt; simp [hidt])]
    simp only [hpid]
    rw [if_neg hg]
    refine ⟨setKeyF cfs "id" (.str g), ?_, ?_⟩
    · rw [hD, jGet_jSet_self_obj]
      rfl
    · rw [jLookupF_setKeyF_self]
      simp [jsTruthyO, jsTruthy, hg]

theorem truthyO_some (o : Option JValue) (h : jsTruthyO o = true) :
    ∃ c, o = some c := by
  cases o with
  | none => simp [jsTruthyO] at h
  | some c => exact ⟨c, rfl⟩

theorem jSet_get_self (args : JValue) (key : String) (v : JValue)
    (h : jGet args key = some v) : jSet args key v = args := by
  obtain ⟨fs, hobj, hlf⟩ := jGet_some_obj args key v h
  subst hobj
  simp only [jSet]
  rw [setKeyF_self_value fs key v hlf]

theorem jSet_getD_self (args : JValue) (key : String) (v : JValue)
    (h : jGet args key = some v) : jSet args key (jGetD args key) = args := by
  have hD : jGetD args key = v := by simp [jGetD, h]
  rw [hD]
  exact jSet_get_self args key v h

theorem ite_jSet_getD_self (args : JValue) (key : String) :
    (if jsTruthyO (jGet args key) = true then
      jSet args key (jGetD args key) else args) = args := by
  by_cases hc : jsTruthyO (jGet args key) = true
  · rw [if_pos hc]
    obtain ⟨c, hcs⟩ := truthyO_some _ hc
    exact jSet_getD_self args key c hcs
  · rw [if_neg hc]

theorem assignRootId_pid_none (args : JValue) (key : String)
    (pid : String → Option String) (model : String) (h : pid model = none) :
    assignRootId args key pid model = args := by
  unfold assignRootId
  rw [h]
  split <;> rfl

theorem cmAssignId_pid_none (item : JValue) (pid : String → Option String)
    (model : String) (h : pid model = none) :
    cmAssignId item pid model = item := by
  unfold cmAssignId
  rw [h]
  split <;> rfl

theorem handler_passthrough (prefixes : Prefixes) (gen : String → String)
    (dmmf : Dmmf) (model : String)
    (hpid0 : ∀ m, prefixedId prefixes gen m = none)
    (hres : ∀ m f, findRelationModel dmmf m f = none) :
    ∀ operation args,
      createOperationHandler operation prefixes gen dmmf model args = args := by
  intro operation args
  have hpnd : ∀ (d : JValue) (mo : String) (b : Bool),
      processNestedData d mo (prefixedId prefixes gen) dmmf b = d :=
    fun d mo b =>
      pnd_identity dmmf hres _ hpid0 (jsize d + 1) d (Nat.lt_succ_self _) mo b
  simp only [createOperationHandler, hpnd]
  by_cases h1 : operation = "upsert"
  · rw [if_pos h1]
    rw [assignRootId_pid_none args "create" _ model (hpid0 model)]
    rw [ite_self]
    by_cases hc : jsTruthyO (jGet args "create") = true
    · rw [if_pos hc]
      obtain ⟨c, hcs⟩ := truthyO_some _ hc
      rw [jSet_getD_self args "create" c hcs]
      exact ite_jSet_getD_self args "update"
    · rw [if_neg hc]
      exact ite_jSet_getD_self args "update"
  · rw [if_neg h1]
    by_cases h2 : operation = "connectOrCreate"
    · rw [if_pos h2]
      rw [assignRootId_pid_none args "create" _ model (hpid0 model)]
      rw [ite_self]
      exact ite_jSet_getD_self args "create"
    · rw [if_neg h2]
      by_cases hd : jsTruthyO (jGet args "data") = true
      · rw [if_pos hd]
        by_cases h3 : operation = "createMany"
        · rw [if_pos h3]
          split
          · rename_i xs hxs
            have hmap : xs.map (fun item =>
                cmAssignId item (prefixedId prefixes gen) model) = xs := by
              rw [show (fun item => cmAssignId item (prefixedId prefixes gen)
                  model) = fun item => item from
                funext (fun item =>
                  cmAssignId_pid_none item _ model (hpid0 model))]
              exact List.map_id xs
            rw [hmap]
            exact jSet_get_self args "data" (.arr xs) hxs
          · rfl
        · rw [if_neg h3]
          by_cases h4 : operation = "create"
          · rw [if_pos h4]
            rw [assignRootId_pid_none args "data" _ model (hpid0 model)]
            obtain ⟨d, hds⟩ := truthyO_some _ hd
            exact jSet_getD_self args "data" d hds
          · rw [if_neg h4]
            by_cases h5 : (operation = "update" || operation = "updateMany")
                = true
            · rw [if_pos h5]
              obtain ⟨d, hds⟩ := truthyO_some _ hd
              exact jSet_getD_self args "data" d hds
            · rw [if_neg h5]
      · rw [if_neg hd]

theorem pnd_obj_id_truthy (dmmf : Dmmf) (cfs : List (String × JValue))
    (model : String) (pid : String → Option String) (b : Bool)
    (hid : ∀ m, findRelationModel dmmf m "id" = none)
    (htid : jsTruthyO (jLookupF cfs "id") = true) :
    jsTruthyO (jGet (processNestedData (.obj cfs) model pid dmmf b) "id")
      = true := by
  rw [pnd_root_id_truthy dmmf cfs model pid b hid htid]
  exact htid

theorem handler_create_truthy_id (prefixes : Prefixes) (gen : String → String)
    (dmmf : Dmmf) (model : String) (afs dfs : List (String × JValue))
    (g : String) (hid : ∀ m, findRelationModel dmmf m "id" = none)
    (hl : jLookupF afs "data" = some (.obj dfs))
    (hpid : prefixedId prefixes gen model = some g) (hg : g ≠ "") :
    jsTruthyO (jGet (jGetD (createOperationHandler "create" prefixes gen dmmf
        model (.obj afs)) "data") "id") = true := by
  have hd' : jGet (JValue.obj afs) "data" = some (.obj dfs) := hl
  simp only [createOperationHandler, String.reduceEq, reduceIte]
  rw [if_pos (jsTruthyO_of_get _ _ _ hd' rfl)]
  obtain ⟨a1fs, he, _⟩ := assignRootId_obj_ne afs "data"
    (prefixedId prefixes gen) model "update" (by decide)
  obtain ⟨cfs', hga1, htid⟩ := assignRootId_creates_truthy_id afs "data"
    (prefixedId prefixes gen) model dfs g hl hpid hg
  rw [he] at hga1 ⊢
  simp only [jGetD, jGet_jSet_self_obj, Option.getD_some, hga1]
  exact pnd_obj_id_truthy dmmf cfs' model (prefixedId prefixes gen) true hid
    htid

theorem handler_upsert_create_truthy (prefixes : Prefixes)
    (gen : String → String) (dmmf : Dmmf) (model : String)
    (afs cfs : List (String × JValue)) (g : String)
    (hid : ∀ m, findRelationModel dmmf m "id" = none)
    (hl : jLookupF afs "create" = some (.obj cfs))
    (hpid : prefixedId prefixes gen model = some g) (hg : g ≠ "") :
    jsTruthyO (jGet (jGetD (createOperationHandler "upsert" prefixes gen dmmf
        model (.obj afs)) "create") "id") = true := by
  have hc' : jGet (JValue.obj afs) "create" = some (.obj cfs) := hl
  simp only [createOperationHandler, String.reduceEq, reduceIte]
  rw [if_pos (jsTruthyO_of_get _ _ _ hc' rfl)]
  obtain ⟨a1fs, he, _⟩ := assignRootId_obj_ne afs "create"
    (prefixedId prefixes gen) model "update" (by decide)
  obtain ⟨cfs', hga1, htid⟩ := assignRootId_creates_truthy_id afs "create"
    (prefixedId prefixes gen) model cfs g hl hpid hg
  rw [he] at hga1 ⊢
  rw [if_pos (jsTruthyO_of_get _ _ _ hga1 rfl)]
  have hcval : jGet (jSet (JValue.obj a1fs) "create"
      (processNestedData (jGetD (JValue.obj a1fs) "create") model
        (prefixedId prefixes gen) dmmf true)) "create"
      = some (processNestedData (.obj cfs') model (prefixedId prefixes gen)
          dmmf true) := by
    rw [jGet_jSet_self_obj]
    simp only [jGetD, hga1, Option.getD_some]
  by_cases hu : jsTruthyO (jGet (jSet (JValue.obj a1fs) "create"
      (processNestedData (jGetD (JValue.obj a1fs) "create") model
        (prefixedId prefixes gen) dmmf true)) "update") = true
  · rw [if_pos hu]
    rw [jGetD, jGet_jSet_ne _ _ _ _ (show ("create" : String) ≠ "update"
      by decide)]
    rw [hcval]
    simp only [Option.getD_some]
    exact pnd_obj_id_truthy dmmf cfs' model (prefixedId prefixes gen) true hid
      htid
  · rw [if_neg hu]
    rw [jGetD, hcval]
    simp only [Option.getD_some]
    exact pnd_obj_id_truthy dmmf cfs' model (prefixedId prefixes gen) true hid
      htid

theorem handler_coc_create_truthy (prefixes : Prefixes)
    (gen : String → String) (dmmf : Dmmf) (model : String)
    (afs cfs : List (String × JValue)) (g : String)
    (hid : ∀ m, findRelationModel dmmf m "id" = none)
    (hl : jLookupF afs "create" = some (.obj cfs))
    (hpid : prefixedId prefixes gen model = some g) (hg : g ≠ "") :
    jsTruthyO (jGet (jGetD (createOperationHandler "connectOrCreate" prefixes
        gen dmmf model (.obj afs)) "create") "id") = true := by
  have hc' : jGet (JValue.obj afs) "create" = some (.obj cfs) := hl
  simp only [createOperationHandler, String.reduceEq, reduceIte]
  rw [if_pos (jsTruthyO_of_get _ _ _ hc' rfl)]
  obtain ⟨a1fs, he, _⟩ := assignRootId_obj_ne afs "create"
    (prefixedId prefixes gen) model "update" (by decide)
  obtain ⟨cfs', hga1, htid⟩ := assignRootId_creates_truthy_id afs "create"
    (prefixedId prefixes gen) model cfs g hl hpid hg
  rw [he] at hga1 ⊢
  rw [if_pos (jsTruthyO_of_get _ _ _ hga1 rfl)]
  rw [jGetD, jGet_jSet_self_obj]
  simp only [jGetD, hga1, Option.getD_some]
  exact pnd_obj_id_truthy dmmf cfs' model (prefixedId prefixes gen) true hid
    htid

theorem handler_createMany_data (prefixes : Prefixes) (gen : String → String)
    (dmmf : Dmmf) (model : String) (afs : List (String × JValue))
    (xs : List JValue) (hl : jLookupF afs "data" = some (.arr xs)) :
    jGet (createOperationHandler "createMany" prefixes gen dmmf model
        (.obj afs)) "data"
      = some (.arr (xs.map (fun item =>
          cmAssignId item (prefixedId prefixes gen) model))) := by
  have hd' : jGet (JValue.obj afs) "data" = some (.arr xs) := hl
  simp only [createOperationHandler, String.reduceEq, reduceIte]
  rw [if_pos (jsTruthyO_of_get _ _ _ hd' rfl)]
  simp only [hd']
  rw [jGet_jSet_self_obj]

theorem cmAssignId_truthy (ifs : List (String × JValue))
    (pid : String → Option String) (model : String) (g : String)
    (hpid : pid model = some g) (hg : g ≠ "") :
    jsTruthyO (jGet (cmAssignId (.obj ifs) pid model) "id") = true := by
  unfold cmAssignId
  by_cases hidt : jsTruthyO (jGet (JValue.obj ifs) "id") = true
  · rw [if_neg (by simp [hidt])]
    exact hidt
  · rw [if_pos (by simp [Bool.not_eq_true] at hidt; simp [hidt])]
    simp only [hpid]
    rw [if_neg hg]
    rw [jGet_jSet_self_obj]
    simp [jsTruthyO, jsTruthy, hg]

/-- C6: when the root entity has a configured non-empty prefix, the
arguments forwarded to the continuation carry a truthy identifier at the
root create position — `data` for `create`, `create` for `upsert` and
`connectOrCreate`, and every (object) element of `data` for `createMany` —
whether the caller supplied a truthy `id` (kept) or not (synthesized); and
when no prefix is configured for any entity and no relation field
resolves, every handler forwards its arguments completely unchanged. -/
theorem C6_root_id_and_passthrough (prefixes : Prefixes)
    (gen : String → String) (dmmf : Dmmf) (model : String) :
    (∀ g, prefixedId prefixes gen model = some g → g ≠ "" →
      (∀ m, findRelationModel dmmf m "id" = none) →
      (∀ afs dfs, jLookupF afs "data" = some (.obj dfs) →
        jsTruthyO (jGet (jGetD (createOperationHandler "create" prefixes gen
            dmmf model (.obj afs)) "data") "id") = true)
      ∧ (∀ afs cfs, jLookupF afs "create" = some (.obj cfs) →
        jsTruthyO (jGet (jGetD (createOperationHandler "upsert" prefixes gen
            dmmf model (.obj afs)) "create") "id") = true)
      ∧ (∀ afs cfs, jLookupF afs "create" = some (.obj cfs) →
        jsTruthyO (jGet (jGetD (createOperationHandler "connectOrCreate"
            prefixes gen dmmf model (.obj afs)) "create") "id") = true)
      ∧ (∀ afs xs, jLookupF afs "data" = some (.arr xs) →
        jGet (createOperationHandler "createMany" prefixes gen dmmf model
            (.obj afs)) "data"
          = some (.arr (xs.map (fun item =>
              cmAssignId item (prefixedId prefixes gen) model)))
        ∧ ∀ ifs, jsTruthyO (jGet (cmAssignId (.obj ifs)
            (prefixedId prefixes gen) model) "id") = true))
    ∧ ((∀ m, prefixedId prefixes gen m = none) →
      (∀ m f, findRelationModel dmmf m f = none) →
      ∀ operation args,
        createOperationHandler operation prefixes gen dmmf model args
          = args) := by
  constructor
  · intro g hpid hg hid
    refine ⟨?_, ?_, ?_, ?_⟩
    · intro afs dfs hl
      exact handler_create_truthy_id prefixes gen dmmf model afs dfs g hid hl
        hpid hg
    · intro afs cfs hl
      exact handler_upsert_create_truthy prefixes gen dmmf model afs cfs g hid
        hl hpid hg
    · intro afs cfs hl
      exact handler_coc_create_truthy prefixes gen dmmf model afs cfs g hid hl
        hpid hg
    · intro afs xs hl
      refine ⟨handler_createMany_data prefixes gen dmmf model afs xs hl, ?_⟩
      intro ifs
      exact cmAssignId_truthy ifs (prefixedId prefixes gen) model g hpid hg
  · intro hpid0 hres
    exact handler_passthrough prefixes gen dmmf model hpid0 hres

theorem C6_witness :
    jsTruthyO (jGet (jGetD (createOperationHandler "create"
        (.map [("User", "usr"), ("Post", "pst"), ("Category", "cat")])
        (fun p => p ++ "_1") demoDmmf "User"
        (.obj [("data", .obj [("name", .str "N")])])) "data") "id") = true
    ∧ createOperationHandler "update" (.map []) (fun p => p ++ "_1")
        ⟨[]⟩ "User" (.obj [("data", .obj [("name", .str "N")])])
      = .obj [("data", .obj [("name", .str "N")])] := by
  constructor
  · exact ((C6_root_id_and_passthrough
      (.map [("User", "usr"), ("Post", "pst"), ("Category", "cat")])
      (fun p => p ++ "_1") demoDmmf "User").1 "usr_1" rfl (by decide)
      (by
        intro m
        rw [findRelationModel_demoDmmf_eval]
        split_ifs <;> first | rfl | simp_all)).1
      [("data", .obj [("name", .str "N")])] [("name", .str "N")] rfl
  · exact (C6_root_id_and_passthrough (.map []) (fun p => p ++ "_1")
      ⟨[]⟩ "User").2 (fun m => rfl) (fun m f => rfl) "update"
      (.obj [("data", .obj [("name", .str "N")])])

theorem cmAssignId_truthy_id (item : JValue) (pid : String → Option String)
    (model : String) (ht : jsTruthyO (jGet item "id") = true) :
    cmAssignId item pid model = item := by
  unfold cmAssignId
  rw [if_neg (by simp [ht])]

theorem cmAssignId_falsy_obj (ifs : List (String × JValue))
    (pid : String → Option String) (model : String) (g : String)
    (hf : jsTruthyO (jLookupF ifs "id") = false)
    (hpid : pid model = some g) (hg : g ≠ "") :
    cmAssignId (.obj ifs) pid model = .obj (setKeyF ifs "id" (.str g)) := by
  unfold cmAssignId
  rw [if_pos (by simp [jGet, hf])]
  simp only [hpid]
  rw [if_neg hg]
  rfl

theorem cmAssignId_get_ne (item : JValue) (pid : String → Option String)
    (model : String) (k : String) (hk : k ≠ "id") :
    jGet (cmAssignId item pid model) k = jGet item k := by
  unfold cmAssignId
  split
  · split
    · split
      · rfl
      · exact jGet_jSet_ne _ _ _ _ hk
    · rfl
  · rfl

/-- C8: for the top-level `createMany` with an array `data` of length N the
dispatcher forwards a `data` array of exactly N elements in the original
order, each rewritten independently by the per-element id step: an element
with a truthy `id` is unchanged, an object element with a falsy `id`
receives the generated identifier when a non-empty prefix is configured
(only its `id` key is written), and no other key of any element — in
particular no nested relation — is touched. -/
theorem C8_createMany_elementwise (prefixes : Prefixes)
    (gen : String → String) (dmmf : Dmmf) (model : String)
    (afs : List (String × JValue)) (xs : List JValue)
    (hl : jLookupF afs "data" = some (.arr xs)) :
    jGet (createOperationHandler "createMany" prefixes gen dmmf model
        (.obj afs)) "data"
      = some (.arr (xs.map (fun item =>
          cmAssignId item (prefixedId prefixes gen) model)))
    ∧ (xs.map (fun item =>
        cmAssignId item (prefixedId prefixes gen) model)).length = xs.length
    ∧ (∀ i : Nat, (xs.map (fun item =>
        cmAssignId item (prefixedId prefixes gen) model))[i]?
          = (xs[i]?).map (fun item =>
              cmAssignId item (prefixedId prefixes gen) model))
    ∧ (∀ item, jsTruthyO (jGet item "id") = true →
        cmAssignId item (prefixedId prefixes gen) model = item)
    ∧ (∀ ifs g, jsTruthyO (jLookupF ifs "id") = false →
        prefixedId prefixes gen model = some g → g ≠ "" →
        cmAssignId (.obj ifs) (prefixedId prefixes gen) model
          = .obj (setKeyF ifs "id" (.str g)))
    ∧ (∀ item k, k ≠ "id" →
        jGet (cmAssignId item (prefixedId prefixes gen) model) k
          = jGet item k) := by
  refine ⟨handler_createMany_data prefixes gen dmmf model afs xs hl,
    List.length_map xs _, ?_, ?_, ?_, ?_⟩
  · intro i
    simp
  · intro item ht
    exact cmAssignId_truthy_id item (prefixedId prefixes gen) model ht
  · intro ifs g hf hpid hg
    exact cmAssignId_falsy_obj ifs (prefixedId prefixes gen) model g hf hpid hg
  · intro item k hk
    exact cmAssignId_get_ne item (prefixedId prefixes gen) model k hk

theorem C8_witness :
    jGet (createOperationHandler "createMany" (.map [("User", "usr")])
        (fun p => p ++ "_1") demoDmmf "User"
        (.obj [("data", .arr [.obj [("id", .str "u1")],
                              .obj [("name", .str "B")]])])) "data"
      = some (.arr ([.obj [("id", .str "u1")], .obj [("name", .str "B")]].map
          (fun item => cmAssignId item
            (prefixedId (.map [("User", "usr")]) (fun p => p ++ "_1"))
            "User")))
    ∧ cmAssignId (.obj [("id", .str "u1")])
        (prefixedId (.map [("User", "usr")]) (fun p => p ++ "_1")) "User"
      = .obj [("id", .str "u1")]
    ∧ cmAssignId (.obj [("name", .str "B")])
        (prefixedId (.map [("User", "usr")]) (fun p => p ++ "_1")) "User"
      = .obj (setKeyF [("name", .str "B")] "id" (.str "usr_1")) := by
  have h := C8_createMany_elementwise (.map [("User", "usr")])
    (fun p => p ++ "_1") demoDmmf "User"
    [("data", .arr [.obj [("id", .str "u1")], .obj [("name", .str "B")]])]
    [.obj [("id", .str "u1")], .obj [("name", .str "B")]] rfl
  exact ⟨h.1, h.2.2.2.1 (.obj [("id", .str "u1")]) rfl,
    h.2.2.2.2.1 [("name", .str "B")] "usr_1" rfl rfl (by decide)⟩
